import Mathlib

/-!
Verification of the PLACES client core (`places_client.py`): the record
normalizer (`_json_to_df`), the county-data loader (`get_county_data`), the
table filter (`filter_by_measures`), and the statistics operations
(`get_correlation`, and the spec-described `filter_by_regions` /
`summarize_measure` whose bodies are exercised only by the test suite).

Values are modelled by `Val` (JSON string / number / null); a pandas DataFrame
is modelled by `DF`: an ordered column list, a row-label index, and rows kept
as ordered association lists from column name to value.  Numbers are modelled
by `ℚ` (pandas floats, exact); the float NaN produced by `pd.to_numeric` on a
null is modelled by `Val.null`.  Python exceptions are modelled by `PErr` and
fallible operations return `Except PErr _`.
-/

/-- Rational addition through `mkRat`, definitionally transparent so that
concrete runs of the embedding reduce (`Rat.add` itself is opaque to
`decide`). -/
def qadd (a b : ℚ) : ℚ := mkRat (a.num * b.den + b.num * a.den) (a.den * b.den)

theorem qadd_eq (a b : ℚ) : qadd a b = a + b := (Rat.add_def' a b).symm

/-- Rational subtraction through `mkRat`. -/
def qsub (a b : ℚ) : ℚ := mkRat (a.num * b.den - b.num * a.den) (a.den * b.den)

theorem qsub_eq (a b : ℚ) : qsub a b = a - b := (Rat.sub_def' a b).symm

/-- Rational multiplication through `mkRat`. -/
def qmul (a b : ℚ) : ℚ := mkRat (a.num * b.num) (a.den * b.den)

theorem qmul_eq (a b : ℚ) : qmul a b = a * b := by
  rw [qmul, Rat.mul_def, Rat.normalize_eq_mkRat]

/-- Rational inverse through `Rat.divInt`. -/
def qinv (a : ℚ) : ℚ := Rat.divInt a.den a.num

theorem qinv_eq (a : ℚ) : qinv a = a⁻¹ := (Rat.inv_def a).symm

/-- Rational division through `mkRat`. -/
def qdiv (a b : ℚ) : ℚ := qmul a (qinv b)

theorem qdiv_eq (a b : ℚ) : qdiv a b = a / b := by
  rw [qdiv, qmul_eq, qinv_eq, div_eq_mul_inv]

/-- Sum of a list of rationals through `qadd`. -/
def qsum (l : List ℚ) : ℚ := l.foldr qadd 0

theorem qsum_eq (l : List ℚ) : qsum l = l.sum := by
  induction l with
  | nil => rfl
  | cons a t ih => simp [qsum, List.foldr] at ih ⊢; rw [qadd_eq, ih]

/-- A cell value: JSON null (also modelling a float NaN), a number, or a
string. -/
inductive Val where
  | null : Val
  | num : ℚ → Val
  | str : String → Val
deriving DecidableEq, Repr, Inhabited

/-- `true` exactly on string cells (the cells that keep a column's dtype
non-numeric). -/
def Val.isStr : Val → Bool
  | .str _ => true
  | _ => false

/-- A raw JSON record: an ordered mapping from field name to value (a Python
dict, so field names are unique). -/
abbrev Record := List (String × Val)

/-- A DataFrame row: an ordered mapping from column name to cell value. -/
abbrev Row := List (String × Val)

/-- Column access within a row; a missing column reads as null (pandas fills
absent fields of a record with NaN). -/
def rowVal (row : Row) (c : String) : Val := (row.lookup c).getD Val.null

/-- The DataFrame model: column order, row-label index, and rows. -/
structure DF where
  cols : List String
  index : List Nat
  rows : List Row
deriving DecidableEq, Repr, Inhabited

/-- First-appearance deduplication, with the already-emitted elements as the
accumulator. -/
def dedupAux {α : Type} [DecidableEq α] : List α → List α → List α
  | [], _ => []
  | a :: t, seen =>
    if seen.any (fun b => decide (b = a)) then dedupAux t seen
    else a :: dedupAux t (a :: seen)

/-- First-appearance deduplication (dict keys, pandas group keys). -/
def dedupF {α : Type} [DecidableEq α] (l : List α) : List α := dedupAux l []

theorem mem_of_mem_dedupAux {α : Type} [DecidableEq α] {a : α} :
    ∀ {l seen : List α}, a ∈ dedupAux l seen → a ∈ l
  | b :: t, seen, h => by
    by_cases hb : seen.any (fun x => decide (x = b))
    · simp only [dedupAux, if_pos hb] at h
      exact List.mem_cons_of_mem b (mem_of_mem_dedupAux h)
    · simp only [dedupAux, if_neg hb, List.mem_cons] at h
      rcases h with h | h
      · exact h ▸ List.mem_cons_self _ _
      · exact List.mem_cons_of_mem b (mem_of_mem_dedupAux h)

theorem dedupAux_not_mem_seen_and_nodup {α : Type} [DecidableEq α] :
    ∀ (l seen : List α), (∀ b ∈ dedupAux l seen, b ∉ seen) ∧ (dedupAux l seen).Nodup
  | [], _ => ⟨fun b hb => absurd hb (List.not_mem_nil b), List.nodup_nil⟩
  | a :: t, seen => by
    by_cases ha : seen.any (fun x => decide (x = a))
    · simpa only [dedupAux, if_pos ha] using dedupAux_not_mem_seen_and_nodup t seen
    · have ih := dedupAux_not_mem_seen_and_nodup t (a :: seen)
      simp only [dedupAux, if_neg ha]
      constructor
      · intro b hb hbs
        rcases List.mem_cons.mp hb with rfl | hb2
        · exact ha (List.any_eq_true.mpr ⟨b, hbs, by simp⟩)
        · exact ih.1 b hb2 (List.mem_cons_of_mem a hbs)
      · exact List.nodup_cons.mpr ⟨fun hmem => ih.1 a hmem (List.mem_cons_self a seen), ih.2⟩

theorem dedupF_nodup {α : Type} [DecidableEq α] (l : List α) : (dedupF l).Nodup :=
  (dedupAux_not_mem_seen_and_nodup l []).2

theorem mem_dedupAux_of_mem {α : Type} [DecidableEq α] {a : α} :
    ∀ {l seen : List α}, a ∈ l → a ∉ seen → a ∈ dedupAux l seen
  | b :: t, seen, hl, hs => by
    by_cases hb : seen.any (fun x => decide (x = b))
    · simp only [dedupAux, if_pos hb]
      rcases List.mem_cons.mp hl with rfl | ht
      · exact absurd (by simpa using List.any_eq_true.mp hb) (by simpa using hs)
      · exact mem_dedupAux_of_mem ht hs
    · simp only [dedupAux, if_neg hb, List.mem_cons]
      rcases List.mem_cons.mp hl with rfl | ht
      · exact Or.inl rfl
      · by_cases hab : a = b
        · exact Or.inl hab
        · exact Or.inr (mem_dedupAux_of_mem ht (by simp [hs, hab]))

theorem mem_dedupF_iff {α : Type} [DecidableEq α] {a : α} {l : List α} :
    a ∈ dedupF l ↔ a ∈ l :=
  ⟨mem_of_mem_dedupAux, fun h => mem_dedupAux_of_mem h (List.not_mem_nil a)⟩

/-- Union of the field names of a record sequence, in order of first
appearance: the column set `pd.DataFrame(list_of_dicts)` builds (keys within
one record are unique, being Python dict keys). -/
def colUnion (records : List Record) : List String :=
  records.foldl (fun acc r => acc ++ ((dedupF (r.map Prod.fst)).filter (fun k => !acc.contains k))) []

/-- `pd.DataFrame(data)` on a list of JSON records: columns are the union of
field names, each row holds every column (missing fields read as null), and
the index is the default `RangeIndex`. -/
def DF.ofRecords (records : List Record) : DF :=
  let cs := colUnion records
  { cols := cs
    index := List.range records.length
    rows := records.map (fun rec => cs.map (fun c => (c, (rec.lookup c).getD Val.null))) }

/-- `df.drop(bad, axis=1, errors='ignore')`: remove the listed columns where
present, keeping the order of the remaining columns and of the rows. -/
def DF.dropCols (df : DF) (bad : List String) : DF :=
  { cols := df.cols.filter (fun c => !bad.contains c)
    index := df.index
    rows := df.rows.map (fun r => r.filter (fun kv => !bad.contains kv.1)) }

/-- Digit run to a natural number. -/
def digitsVal (cs : List Char) : Nat :=
  cs.foldl (fun n c => n * 10 + (c.toNat - 48)) 0

/-- Parse an unsigned decimal literal (digits with an optional decimal
point); the value of `ip.fp` is `(ip * 10^|fp| + fp) / 10^|fp|`. -/
def parseUnsigned (cs : List Char) : Option ℚ :=
  match cs.span Char.isDigit with
  | (ip, rest) =>
    match rest with
    | [] => if ip.isEmpty then none else some ((digitsVal ip : ℕ) : ℚ)
    | '.' :: fp =>
      if fp.all Char.isDigit && !(ip.isEmpty && fp.isEmpty) then
        some (mkRat (digitsVal ip * 10 ^ fp.length + digitsVal fp) (10 ^ fp.length))
      else none
    | _ => none

/-- Parse a signed decimal literal, the string shapes `pd.to_numeric` accepts
in this dataset (the observed values are plain decimals such as "3.7"). -/
def parseDecimal (s : String) : Option ℚ :=
  match s.data with
  | '-' :: cs => (parseUnsigned cs).map (fun q => -q)
  | '+' :: cs => parseUnsigned cs
  | cs => parseUnsigned cs

/-- `pd.to_numeric` on one cell: numbers pass through, null stays NaN
(modelled as null), a string must parse as a number or the conversion
fails. -/
def toNumericVal : Val → Option Val
  | .null => some Val.null
  | .num q => some (Val.num q)
  | .str s => (parseDecimal s).map Val.num

/-- The Python exceptions the client can surface. -/
inductive PErr where
  | typeError : String → PErr
  | valueError : String → PErr
  | toNumericError : PErr
  | keyError : String → PErr
deriving DecidableEq, Repr

/-- Spec error taxonomy: `InvalidArgumentError` covers the TypeError and
ValueError the client raises while validating caller arguments. -/
def PErr.isInvalidArgumentError : PErr → Bool
  | .typeError _ => true
  | .valueError _ => true
  | _ => false

/-- Spec error taxonomy: `DataFormatError` is the ValueError raised inside
`pd.to_numeric` when a declared-numeric cell cannot be coerced. -/
def PErr.isDataFormatError : PErr → Bool
  | .toNumericError => true
  | _ => false

deriving instance DecidableEq for Except

/-- Convert the cells of column `c` within one row, leaving other entries
untouched; fails when the cell is a non-numeric non-null string. -/
def convRow (c : String) : Row → Option Row
  | [] => some []
  | (k, v) :: t =>
    if k = c then
      match toNumericVal v with
      | none => none
      | some v2 => (convRow c t).map (fun r => (k, v2) :: r)
    else
      (convRow c t).map (fun r => (k, v) :: r)

/-- Convert column `c` across all rows. -/
def convRows (c : String) : List Row → Option (List Row)
  | [] => some []
  | r :: t =>
    match convRow c r with
    | none => none
    | some r2 => (convRows c t).map (fun rs => r2 :: rs)

/-- `df[col] = pd.to_numeric(df[col])` guarded by `if col in df.columns`. -/
def DF.toNumericCol (df : DF) (c : String) : Except PErr DF :=
  if df.cols.contains c then
    match convRows c df.rows with
    | none => .error PErr.toNumericError
    | some rs => .ok { df with rows := rs }
  else .ok df

/-- The metadata columns `_json_to_df` drops. -/
def metadataCols : List String :=
  [":id", ":version", ":created_at", ":updated_at", "data_value_footnote_symbol", "data_value_footnote"]

/-- The four declared-numeric columns `_json_to_df` coerces. -/
def numericCols : List String :=
  ["data_value", "low_confidence_limit", "high_confidence_limit", "totalpopulation"]

/-- `PlacesClient._json_to_df`: build the DataFrame, drop the metadata
columns, then coerce each declared-numeric column that is present (the loop
over `numeric_cols` unrolled). -/
def json_to_df (data : List Record) : Except PErr DF := do
  let df := (DF.ofRecords data).dropCols metadataCols
  let df ← df.toNumericCol "data_value"
  let df ← df.toNumericCol "low_confidence_limit"
  let df ← df.toNumericCol "high_confidence_limit"
  let df ← df.toNumericCol "totalpopulation"
  .ok df

example :
    json_to_df [[("measureid", Val.str "STROKE"), ("data_value", Val.str "3.7"), (":id", Val.str "x")]]
      = .ok { cols := ["measureid", "data_value"]
              index := [0]
              rows := [[("measureid", Val.str "STROKE"), ("data_value", Val.num (mkRat 37 10))]] } := by
  decide

example : json_to_df [[("data_value", Val.str "abc")]] = .error PErr.toNumericError := by
  decide

example : json_to_df [[("data_value", Val.null)]]
    = .ok { cols := ["data_value"], index := [0], rows := [[("data_value", Val.null)]] } := by
  decide

/-- `df[mask]` for a row-wise boolean mask: keep the rows satisfying the
predicate together with their original index labels. -/
def DF.filterRows (df : DF) (p : Row → Bool) : DF :=
  { cols := df.cols
    index := ((df.index.zip df.rows).filter (fun ir => p ir.2)).map Prod.fst
    rows := df.rows.filter p }

/-- `df.reset_index(drop=True)`: relabel the rows `0, 1, 2, ...`. -/
def DF.reset_index (df : DF) : DF :=
  { df with index := List.range df.rows.length }

/-- `df[df[c].isin(vals)]`: raises `KeyError` when the column is absent,
otherwise keeps the rows whose cell in column `c` equals one of the given
strings. -/
def DF.isinFilter (df : DF) (c : String) (vals : List String) : Except PErr DF :=
  if df.cols.contains c then
    .ok (df.filterRows (fun row => vals.any (fun s => decide (rowVal row c = Val.str s))))
  else .error (PErr.keyError c)

/-- `df.dropna(subset=cs)`: raises `KeyError` when a subset column is absent,
otherwise keeps the rows that are non-null in every subset column. -/
def DF.dropnaSubset (df : DF) (cs : List String) : Except PErr DF :=
  match cs.find? (fun c => !df.cols.contains c) with
  | some c => .error (PErr.keyError c)
  | none => .ok (df.filterRows (fun row => cs.all (fun c => !decide (rowVal row c = Val.null))))

/-- The fixed release-to-resource routing table of `get_county_data`. -/
def release_ids : List (String × String) :=
  [("2025", "swc5-untb"), ("2024", "fu4u-a9bh"), ("2023", "h3ej-a9ec"),
   ("2022", "duw2-7jbt"), ("2021", "pqpp-u99h"), ("2020", "dv4u-3x3q")]

/-- The fixed base URL of the client. -/
def base_url : String := "https://data.cdc.gov/api/v3/views/"

/-- A Python argument that is either a string or some non-string value (all
non-strings behave alike under `isinstance(release, str)`). -/
inductive PyArg where
  | pyStr : String → PyArg
  | nonStr : PyArg
deriving DecidableEq, Repr

/-- The boolean filter `get_county_data` keeps: `categoryid` is one of the two
covered categories. -/
def coveredCategory (row : Row) : Bool :=
  ["HLTHOUT", "RISKBEH"].any (fun s => decide (rowVal row "categoryid" = Val.str s))

/-- The boolean filter of `dropna(subset=["data_value"])`: the row is non-null
in `data_value`. -/
def hasDataValue (row : Row) : Bool :=
  ["data_value"].all (fun c => !decide (rowVal row c = Val.null))

/-- `PlacesClient.get_county_data`, parameterized by the fetch capability
(`_make_request` composed with the session): validate the release, fetch,
normalize, keep the two covered categories, re-index, drop rows with a null
`data_value`, and re-index again. -/
def get_county_data (fetch : String → List Record) (release : PyArg) : Except PErr DF := do
  match release with
  | .nonStr => .error (PErr.typeError "The release must be a string.")
  | .pyStr s =>
    match release_ids.lookup s with
    | none => .error (PErr.valueError "This release version is not supported.")
    | some rid =>
      let data := fetch (base_url ++ rid ++ "/query.json")
      let df ← json_to_df data
      let df ← df.isinFilter "categoryid" ["HLTHOUT", "RISKBEH"]
      let df := df.reset_index
      let df ← df.dropnaSubset ["data_value"]
      .ok df.reset_index

/-- The mocked API record of the repository's test suite. -/
def mockRecord : Record :=
  [("year", Val.str "2022"), ("stateabbr", Val.str "WI"), ("statedesc", Val.str "Wisconsin"),
   ("locationname", Val.str "Fond du Lac"), ("category", Val.str "Health Outcomes"),
   ("measure", Val.str "Stroke among adults"), ("data_value", Val.str "3.7"),
   ("totalpopulation", Val.str "103836"), ("locationid", Val.str "55039"),
   ("categoryid", Val.str "HLTHOUT"), ("measureid", Val.str "STROKE"),
   ("short_question_text", Val.str "Stroke")]

/-- A fetch capability returning the mocked record. -/
def mockFetch : String → List Record := fun _ => [mockRecord]

/-- The concrete value `get_county_data` returns on the mocked fixture (the
repository's `test_get_county_data`). -/
def mockCountyResult : DF :=
  { cols := ["year", "stateabbr", "statedesc", "locationname", "category", "measure",
             "data_value", "totalpopulation", "locationid", "categoryid", "measureid",
             "short_question_text"]
    index := [0]
    rows := [[("year", Val.str "2022"), ("stateabbr", Val.str "WI"),
              ("statedesc", Val.str "Wisconsin"), ("locationname", Val.str "Fond du Lac"),
              ("category", Val.str "Health Outcomes"), ("measure", Val.str "Stroke among adults"),
              ("data_value", Val.num (mkRat 37 10)), ("totalpopulation", Val.num 103836),
              ("locationid", Val.str "55039"), ("categoryid", Val.str "HLTHOUT"),
              ("measureid", Val.str "STROKE"), ("short_question_text", Val.str "Stroke")]] }

example : get_county_data mockFetch (PyArg.pyStr "2022") = .ok mockCountyResult := by
  decide

example : get_county_data mockFetch (PyArg.pyStr "1999")
    = .error (PErr.valueError "This release version is not supported.") := by
  decide

example : get_county_data mockFetch PyArg.nonStr
    = .error (PErr.typeError "The release must be a string.") := by
  decide

/-- One optional criterion step of `filter_by_measures`: Python truthiness
means `None` and the empty list both skip the step; a truthy list applies the
`isin` mask over the given column. -/
def applyCriterion (df : DF) (col : String) (crit : Option (List String)) : Except PErr DF :=
  match crit with
  | none => .ok df
  | some vals => if vals.isEmpty then .ok df else df.isinFilter col vals

/-- `PlacesClient.filter_by_measures`: the three optional criteria applied in
order over `short_question_text`, `category`, `measureid`. -/
def filter_by_measures (df : DF) (measures categories measure_ids : Option (List String)) :
    Except PErr DF := do
  let s1 ← applyCriterion df "short_question_text" measures
  let s2 ← applyCriterion s1 "category" categories
  applyCriterion s2 "measureid" measure_ids

/-- Modelled from the spec: `filterByRegions` is absent from `src/` (only the
test suite calls it); spec section 4.5 describes it as the same conjunctive
optional-criterion pattern as `filter_by_measures`, matching columns
`stateabbr` and `locationid`. -/
def filter_by_regions (df : DF) (states counties : Option (List String)) : Except PErr DF := do
  let s1 ← applyCriterion df "stateabbr" states
  applyCriterion s1 "locationid" counties

/-- A heap of DataFrame objects, for stating which Python object a call
returns (reference identity). -/
structure PyHeap where
  dfs : List DF
deriving DecidableEq, Repr

/-- A reference into the heap. -/
abbrev Ref := Nat

/-- Dereference. -/
def PyHeap.get (h : PyHeap) (r : Ref) : DF := h.dfs.getD r default

/-- Allocate a fresh DataFrame object and return its reference. -/
def PyHeap.alloc (h : PyHeap) (d : DF) : PyHeap × Ref :=
  ({ dfs := h.dfs ++ [d] }, h.dfs.length)

/-- One criterion step at the reference level: a skipped step passes the
current reference through unchanged; an applied mask (`sub_df[...]`)
allocates a fresh DataFrame object. -/
def applyCriterionRef (h : PyHeap) (r : Ref) (col : String) (crit : Option (List String)) :
    Except PErr (PyHeap × Ref) :=
  match crit with
  | none => .ok (h, r)
  | some vals =>
    if vals.isEmpty then .ok (h, r)
    else ((h.get r).isinFilter col vals).map (fun df2 => h.alloc df2)

/-- `filter_by_measures` at the reference level: `sub_df = df` aliases the
argument, so with no applied criterion the function returns the argument
object itself. -/
def filter_by_measures_ref (h : PyHeap) (r : Ref) (measures categories measure_ids : Option (List String)) :
    Except PErr (PyHeap × Ref) := do
  let hr1 ← applyCriterionRef h r "short_question_text" measures
  let hr2 ← applyCriterionRef hr1.1 hr1.2 "category" categories
  applyCriterionRef hr2.1 hr2.2 "measureid" measure_ids

/-- Project a numeric cell; null and strings give nothing (pandas statistics
skip NaN). -/
def numVal : Val → Option ℚ
  | .num q => some q
  | _ => none

/-- The non-null numeric `data_value` cells of the rows matching a measure
identifier. -/
def measureVals (df : DF) (measureId : String) : List ℚ :=
  (df.rows.filter (fun row => decide (rowVal row "measureid" = Val.str measureId))).filterMap
    (fun row => numVal (rowVal row "data_value"))

/-- The summary statistics record of `summarizeMeasure`. -/
structure Summary where
  mean : ℚ
  smin : ℚ
  smax : ℚ
  count : Nat
deriving DecidableEq, Repr

/-- Modelled from the spec: `summarizeMeasure` is absent from `src/` (only the
test suite calls it); spec section 4.7 Contract B describes it as filtering to
rows matching `measureid == measureId` and computing mean/min/max/count of
`data_value` over those rows, with the empty result set left
implementer-defined (modelled as no result). -/
def summarize_measure (df : DF) (measureId : String) : Option Summary :=
  match measureVals df measureId with
  | [] => none
  | v :: vs =>
    some { mean := qdiv (qsum (v :: vs)) ((v :: vs).length : ℚ)
           smin := vs.foldl min v
           smax := vs.foldl max v
           count := (v :: vs).length }

example :
    summarize_measure
      { cols := ["measureid", "data_value"]
        index := [0, 1, 2]
        rows := [[("measureid", Val.str "X"), ("data_value", Val.num 1)],
                 [("measureid", Val.str "X"), ("data_value", Val.num 2)],
                 [("measureid", Val.str "X"), ("data_value", Val.num 3)]] } "X"
      = some { mean := 2, smin := 1, smax := 3, count := 3 } := by
  decide

/-- The non-null values of column `c`, in row order: the group keys pandas
`groupby` forms (NaN keys are excluded). -/
def keyVals (rows : List Row) (c : String) : List Val :=
  rows.filterMap (fun row =>
    let v := rowVal row c
    if v = Val.null then none else some v)

/-- The numeric `data_value` cells of the rows in the (location, measure)
group. -/
def groupVals (rows : List Row) (l m : Val) : List ℚ :=
  rows.filterMap (fun row =>
    if rowVal row "locationname" = l ∧ rowVal row "measureid" = m then
      numVal (rowVal row "data_value")
    else none)

/-- Mean of a list of cell values, or nothing when the list is empty (pandas
returns NaN there). -/
def omean (l : List ℚ) : Option ℚ :=
  if l.isEmpty then none else some (qdiv (qsum l) (l.length : ℚ))

/-- The aggregated pivot cell: the mean of the group's non-null values, NaN
(nothing) when the group is empty or all null. -/
def groupMean (rows : List Row) (l m : Val) : Option ℚ :=
  omean (groupVals rows l m)

/-- A pivot table: location index labels, measure column labels, and the grid
of aggregated cells (`none` = NaN). -/
structure Pivot where
  locs : List Val
  measures : List Val
  cells : List (List (Option ℚ))
deriving DecidableEq, Repr

/-- `df.pivot_table(values='data_value', index='locationname',
columns='measureid')`: raises `KeyError` on a missing key column; the
non-numeric `data_value` dtype error of the mean aggregation is modelled as a
TypeError; otherwise one row per distinct non-null location, one column per
distinct non-null measure, cell = mean of the group's values. -/
def mk_pivot (df : DF) : Except PErr Pivot :=
  if !df.cols.contains "locationname" then .error (PErr.keyError "locationname")
  else if !df.cols.contains "measureid" then .error (PErr.keyError "measureid")
  else if !df.cols.contains "data_value" then .error (PErr.keyError "data_value")
  else if df.rows.any (fun row => (rowVal row "data_value").isStr) then
    .error (PErr.typeError "agg function failed")
  else
    let ls := dedupF (keyVals df.rows "locationname")
    let ms := dedupF (keyVals df.rows "measureid")
    .ok { locs := ls, measures := ms
          cells := ls.map (fun l => ms.map (fun m => groupMean df.rows l m)) }

/-- The `dropna=True` default of `pivot_table`: columns whose entries are all
NaN are not included. -/
def Pivot.dropAllNaNCols (p : Pivot) : Pivot :=
  let keep := (List.range p.measures.length).filter
    (fun j => p.cells.any (fun r => (r.getD j none).isSome))
  { locs := p.locs
    measures := keep.map (fun j => p.measures.getD j Val.null)
    cells := p.cells.map (fun r => keep.map (fun j => r.getD j none)) }

/-- `table.dropna()`: keep the rows (locations) with no NaN cell. -/
def Pivot.dropnaRows (p : Pivot) : Pivot :=
  { locs := ((p.locs.zip p.cells).filter (fun lc => lc.2.all Option.isSome)).map Prod.fst
    measures := p.measures
    cells := p.cells.filter (fun r => r.all Option.isSome) }

/-- Index of the first occurrence of a column label. -/
def colIdx (m : Val) : List Val → Option Nat
  | [] => none
  | a :: t => if a = m then some 0 else (colIdx m t).map Nat.succ

/-- `table[m]`: the column of cells labelled `m` (first matching label), or a
`KeyError` carrying the requested measure identifier. -/
def Pivot.colOf (p : Pivot) (m : String) : Except PErr (List (Option ℚ)) :=
  match colIdx (Val.str m) p.measures with
  | none => .error (PErr.keyError m)
  | some j => .ok (p.cells.map (fun r => r.getD j none))

/-- Sum of squared deviations from the mean: zero exactly when the series has
zero variance. -/
def ssd (l : List ℚ) : ℚ :=
  let mu := qdiv (qsum l) (l.length : ℚ)
  qsum (l.map (fun v => qmul (qsub v mu) (qsub v mu)))

/-- Whether the float Pearson coefficient `Series.corr` computes is NaN: fewer
than two pairs, or zero variance in either series (a 0/0).  Only the NaN-ness
of the coefficient is modelled; its numeric value is an irrational float the
claims never inspect. -/
def corrIsNaN (xs ys : List ℚ) : Bool :=
  decide (xs.length < 2) || decide (ssd xs = 0) || decide (ssd ys = 0)

/-- The dictionary `get_correlation` returns; `corr_isnan` models the NaN-ness
of `corr_coef`, and a mean is `none` when pandas would return the float NaN
(mean of an empty column). -/
structure CorrResult where
  corr_isnan : Bool
  sample_size : Nat
  mean_x : Option ℚ
  mean_y : Option ℚ
deriving DecidableEq, Repr

/-- `PlacesClient.get_correlation` for string arguments (the `None`/type
validation at the top of the function cannot fire on strings): restrict to the
two measures, pivot by location, drop incomplete locations, and report the
coefficient, the number of remaining locations, and the two column means. -/
def get_correlation (df : DF) (x y : String) : Except PErr CorrResult := do
  let sub ← filter_by_measures df none none (some [x, y])
  let p0 ← mk_pivot sub
  let t := (p0.dropAllNaNCols).dropnaRows
  let xcol ← t.colOf x
  let ycol ← t.colOf y
  let xs := xcol.filterMap id
  let ys := ycol.filterMap id
  .ok { corr_isnan := corrIsNaN xs ys
        sample_size := t.locs.length
        mean_x := omean xs
        mean_y := omean ys }

/-- The correlation fixture of the repository's test suite: X=[1,3], Y=[2,4]
across two locations. -/
def corrFixture : DF :=
  { cols := ["locationname", "measureid", "data_value", "short_question_text"]
    index := [0, 1, 2, 3]
    rows := [[("locationname", Val.str "aaa"), ("measureid", Val.str "X"),
              ("data_value", Val.num 1), ("short_question_text", Val.str "diabetes")],
             [("locationname", Val.str "aaa"), ("measureid", Val.str "Y"),
              ("data_value", Val.num 2), ("short_question_text", Val.str "Arthritis")],
             [("locationname", Val.str "bbb"), ("measureid", Val.str "X"),
              ("data_value", Val.num 3), ("short_question_text", Val.str "diabetes")],
             [("locationname", Val.str "bbb"), ("measureid", Val.str "Y"),
              ("data_value", Val.num 4), ("short_question_text", Val.str "Arthritis")]] }

example : get_correlation corrFixture "X" "Y"
    = .ok { corr_isnan := false, sample_size := 2, mean_x := some 2, mean_y := some 3 } := by
  decide

/-- The supported release years as the claim enumerates them. -/
def supportedReleases : List String := ["2025", "2024", "2023", "2022", "2021", "2020"]

/-- Whether an argument is a string in the supported release set. -/
def releaseSupported : PyArg → Bool
  | .pyStr s => supportedReleases.contains s
  | .nonStr => false

theorem lookup_none_of_unsupported (s : String) (h : supportedReleases.contains s = false) :
    release_ids.lookup s = none := by
  simp only [supportedReleases, List.contains_cons, List.contains_nil, Bool.or_eq_false_iff,
    beq_eq_false_iff_ne] at h
  obtain ⟨h1, h2, h3, h4, h5, h6, -⟩ := h
  simp [release_ids, List.lookup, beq_eq_false_iff_ne.mpr h1, beq_eq_false_iff_ne.mpr h2,
    beq_eq_false_iff_ne.mpr h3, beq_eq_false_iff_ne.mpr h4, beq_eq_false_iff_ne.mpr h5,
    beq_eq_false_iff_ne.mpr h6]

/-- Claim C4: for every argument that is not a string or is a string outside
the supported set of release years, `getCountyData` fails with an
`InvalidArgumentError` (the validation TypeError/ValueError), and the fetch
capability is never invoked: the outcome is the same for any two fetch
functions. -/
theorem getCountyData_invalid_release_no_fetch (f g : String → List Record) (rel : PyArg)
    (h : releaseSupported rel = false) :
    (∃ e, get_county_data f rel = .error e ∧ e.isInvalidArgumentError = true)
    ∧ get_county_data f rel = get_county_data g rel := by
  cases rel with
  | nonStr => exact ⟨⟨PErr.typeError "The release must be a string.", rfl, rfl⟩, rfl⟩
  | pyStr s =>
    have hl : release_ids.lookup s = none :=
      lookup_none_of_unsupported s (by simpa [releaseSupported] using h)
    refine ⟨⟨PErr.valueError "This release version is not supported.", ?_, rfl⟩, ?_⟩ <;>
      simp [get_county_data, hl]

/-- Witness for C4 at the concrete unsupported release "1999" and two
distinct fetch capabilities. -/
theorem getCountyData_invalid_release_no_fetch_witness :
    releaseSupported (PyArg.pyStr "1999") = false
    ∧ ((∃ e, get_county_data mockFetch (PyArg.pyStr "1999") = .error e
          ∧ e.isInvalidArgumentError = true)
       ∧ get_county_data mockFetch (PyArg.pyStr "1999")
          = get_county_data (fun _ => []) (PyArg.pyStr "1999")) :=
  ⟨by decide,
   getCountyData_invalid_release_no_fetch mockFetch (fun _ => []) (PyArg.pyStr "1999") (by decide)⟩

/-- Claim C10: passing an empty list for any of the three criteria of
`filterByMeasures` behaves identically to omitting that criterion (Python
truthiness: `if measures:` is false on `[]`), so all rows are retained rather
than none. -/
theorem filterByMeasures_emptyList_like_omitted (df : DF) (m c mi : Option (List String)) :
    filter_by_measures df (some []) c mi = filter_by_measures df none c mi
    ∧ filter_by_measures df m (some []) mi = filter_by_measures df m none mi
    ∧ filter_by_measures df m c (some []) = filter_by_measures df m c none :=
  ⟨rfl, rfl, rfl⟩

/-- A one-object heap for the reference-identity counterexample. -/
def exHeap : PyHeap := { dfs := [mockCountyResult] }

/-- Counterexample to claim C8's copy part: with all criteria omitted,
`filter_by_measures` returns the very argument object (`sub_df = df` aliases
and no mask is applied), not a copy — the heap gains no new object and the
returned reference equals the argument reference. -/
theorem filterByMeasures_noCriteria_same_reference :
    filter_by_measures_ref exHeap 0 none none none = .ok (exHeap, 0)
    ∧ exHeap.dfs.length = 1 :=
  ⟨rfl, rfl⟩

/-- Claim C8 as amended: with all criteria omitted, `filterByMeasures` and
`filterByRegions` return a table with the same rows as the input — indeed the
input table itself, the same reference rather than a copy. -/
theorem filters_noCriteria_identity (df : DF) (h : PyHeap) (r : Ref) :
    filter_by_measures df none none none = .ok df
    ∧ filter_by_regions df none none = .ok df
    ∧ filter_by_measures_ref h r none none none = .ok (h, r) :=
  ⟨rfl, rfl, rfl⟩

/-- The values of column `c`, in row order. -/
def DF.colVals (df : DF) (c : String) : List Val := df.rows.map (fun r => rowVal r c)

theorem except_bind_ok {γ α β : Type} {m : Except γ α} {f : α → Except γ β} {b : β}
    (h : (m >>= f) = .ok b) : ∃ a, m = .ok a ∧ f a = .ok b := by
  cases m with
  | error e => simp [Bind.bind, Except.bind] at h
  | ok a => exact ⟨a, rfl, by simpa [Bind.bind, Except.bind] using h⟩

theorem except_bind_error {γ α β : Type} {m : Except γ α} {f : α → Except γ β} {e : γ}
    (h : (m >>= f) = .error e) : m = .error e ∨ ∃ a, m = .ok a ∧ f a = .error e := by
  cases m with
  | error e2 => simpa [Bind.bind, Except.bind] using h
  | ok a => exact Or.inr ⟨a, rfl, by simpa [Bind.bind, Except.bind] using h⟩

theorem lookup_filter_key {q : String → Bool} {c : String} (hq : q c = true) :
    ∀ l : Row, (l.filter (fun kv => q kv.1)).lookup c = l.lookup c
  | [] => rfl
  | (k, v) :: t => by
    by_cases hk : q k = true
    · rw [List.filter_cons_of_pos (by simpa using hk), List.lookup_cons, List.lookup_cons]
      cases hck : c == k
      · exact lookup_filter_key hq t
      · rfl
    · have hck : (c == k) = false := by
        cases hbe : c == k
        · rfl
        · exact absurd (beq_iff_eq.mp hbe ▸ hq) hk
      rw [List.filter_cons_of_neg (by simpa using hk), List.lookup_cons, hck]
      exact lookup_filter_key hq t

theorem mem_of_lookup_eq_some {c : String} {v : Val} :
    ∀ {l : Row}, l.lookup c = some v → (c, v) ∈ l
  | (k, w) :: t, h => by
    rw [List.lookup_cons] at h
    cases hck : c == k with
    | true =>
      rw [hck] at h
      obtain rfl := Option.some.inj h
      obtain rfl := beq_iff_eq.mp hck
      exact List.mem_cons_self _ _
    | false =>
      rw [hck] at h
      exact List.mem_cons_of_mem _ (mem_of_lookup_eq_some h)

theorem lookup_of_mem_nodupkeys {c : String} {v : Val} :
    ∀ {l : Row}, (l.map Prod.fst).Nodup → (c, v) ∈ l → l.lookup c = some v
  | (k, w) :: t, nd, hm => by
    have nd2 : k ∉ (t.map Prod.fst) ∧ (t.map Prod.fst).Nodup := by
      rw [List.map_cons, List.nodup_cons] at nd
      exact nd
    rcases List.mem_cons.mp hm with he | ht
    · cases he
      exact List.lookup_cons_self
    · have hck : (c == k) = false := by
        cases hbe : c == k
        · rfl
        · obtain rfl := beq_iff_eq.mp hbe
          exact absurd (List.mem_map_of_mem Prod.fst ht) nd2.1
      rw [List.lookup_cons, hck]
      exact lookup_of_mem_nodupkeys nd2.2 ht

theorem toNumericVal_not_str {v v2 : Val} (h : toNumericVal v = some v2) : v2.isStr = false := by
  cases v with
  | null => cases h; rfl
  | num q => cases h; rfl
  | str s =>
    simp only [toNumericVal, Option.map_eq_some'] at h
    obtain ⟨q, -, rfl⟩ := h
    rfl

theorem convRow_keys {c : String} :
    ∀ {r r2 : Row}, convRow c r = some r2 → r2.map Prod.fst = r.map Prod.fst
  | [], r2, h => by cases h; rfl
  | (k, v) :: t, r2, h => by
    by_cases hk : k = c
    · simp only [convRow, if_pos hk] at h
      cases htn : toNumericVal v with
      | none => rw [htn] at h; cases h
      | some v2 =>
        rw [htn, Option.map_eq_some'] at h
        obtain ⟨r2t, ht, rfl⟩ := h
        simp [convRow_keys ht]
    · simp only [convRow, if_neg hk, Option.map_eq_some'] at h
      obtain ⟨r2t, ht, rfl⟩ := h
      simp [convRow_keys ht]

theorem convRow_lookup_other {c k : String} (hk : k ≠ c) :
    ∀ {r r2 : Row}, convRow c r = some r2 → r2.lookup k = r.lookup k
  | [], r2, h => by cases h; rfl
  | (k2, v) :: t, r2, h => by
    by_cases hk2 : k2 = c
    · simp only [convRow, if_pos hk2] at h
      cases htn : toNumericVal v with
      | none => rw [htn] at h; cases h
      | some v2 =>
        rw [htn, Option.map_eq_some'] at h
        obtain ⟨r2t, ht, rfl⟩ := h
        have hbk : (k == k2) = false := beq_eq_false_iff_ne.mpr (fun he => hk (he.trans hk2))
        rw [List.lookup_cons, List.lookup_cons, hbk]
        exact convRow_lookup_other hk ht
    · simp only [convRow, if_neg hk2, Option.map_eq_some'] at h
      obtain ⟨r2t, ht, rfl⟩ := h
      rw [List.lookup_cons, List.lookup_cons]
      cases k == k2
      · exact convRow_lookup_other hk ht
      · rfl

theorem convRow_lookup_self {c : String} :
    ∀ {r r2 : Row}, convRow c r = some r2 → r2.lookup c = (r.lookup c).bind toNumericVal
  | [], r2, h => by cases h; rfl
  | (k, v) :: t, r2, h => by
    by_cases hk : k = c
    · simp only [convRow, if_pos hk] at h
      cases htn : toNumericVal v with
      | none => rw [htn] at h; cases h
      | some v2 =>
        rw [htn, Option.map_eq_some'] at h
        obtain ⟨r2t, ht, rfl⟩ := h
        subst hk
        rw [List.lookup_cons_self, List.lookup_cons_self]
        simp [htn]
    · simp only [convRow, if_neg hk, Option.map_eq_some'] at h
      obtain ⟨r2t, ht, rfl⟩ := h
      have hbk : (c == k) = false := beq_eq_false_iff_ne.mpr (fun he => hk he.symm)
      rw [List.lookup_cons, List.lookup_cons, hbk]
      exact convRow_lookup_self ht

theorem convRow_none_forward {c : String} :
    ∀ {r : Row}, convRow c r = none → ∃ v, (c, v) ∈ r ∧ toNumericVal v = none
  | (k, w) :: t, h => by
    simp only [convRow] at h
    split at h
    · rename_i hk
      subst hk
      split at h
      · rename_i htn
        exact ⟨w, List.mem_cons_self _ _, htn⟩
      · rename_i v2 htn
        rw [Option.map_eq_none'] at h
        obtain ⟨v, hv, hvn⟩ := convRow_none_forward h
        exact ⟨v, List.mem_cons_of_mem _ hv, hvn⟩
    · rw [Option.map_eq_none'] at h
      obtain ⟨v, hv, hvn⟩ := convRow_none_forward h
      exact ⟨v, List.mem_cons_of_mem _ hv, hvn⟩

theorem convRow_none_backward {c : String} {v : Val} (hvn : toNumericVal v = none) :
    ∀ {r : Row}, (c, v) ∈ r → convRow c r = none
  | (k, w) :: t, hm => by
    rcases List.mem_cons.mp hm with he | hm2
    · cases he
      simp [convRow, hvn]
    · have ht : convRow c t = none := convRow_none_backward hvn hm2
      by_cases hk : k = c
      · subst hk
        cases htn : toNumericVal w with
        | none => simp [convRow, htn]
        | some v2 => simp [convRow, htn, ht]
      · simp [convRow, hk, ht]

theorem convRow_entry_rev {c c2 : String} {v : Val} (hne : c2 ≠ c) :
    ∀ {r r2 : Row}, convRow c r = some r2 → (c2, v) ∈ r2 → (c2, v) ∈ r
  | [], r2, h, hm => by cases h; cases hm
  | (k, w) :: t, r2, h, hm => by
    by_cases hk : k = c
    · simp only [convRow, if_pos hk] at h
      cases htn : toNumericVal w with
      | none => rw [htn] at h; cases h
      | some v2 =>
        rw [htn, Option.map_eq_some'] at h
        obtain ⟨r2t, ht, rfl⟩ := h
        rcases List.mem_cons.mp hm with he | hm2
        · cases he
          exact absurd hk hne
        · exact List.mem_cons_of_mem _ (convRow_entry_rev hne ht hm2)
    · simp only [convRow, if_neg hk, Option.map_eq_some'] at h
      obtain ⟨r2t, ht, rfl⟩ := h
      rcases List.mem_cons.mp hm with he | hm2
      · cases he
        exact List.mem_cons_self _ _
      · exact List.mem_cons_of_mem _ (convRow_entry_rev hne ht hm2)

theorem convRows_some_rel {c : String} :
    ∀ {rows rows2 : List Row}, convRows c rows = some rows2 →
      List.Forall₂ (fun r r2 => convRow c r = some r2) rows rows2
  | [], rows2, h => by cases h; exact List.Forall₂.nil
  | r :: t, rows2, h => by
    simp only [convRows] at h
    cases hcr : convRow c r with
    | none => rw [hcr] at h; cases h
    | some r2 =>
      rw [hcr, Option.map_eq_some'] at h
      obtain ⟨rs2, ht, rfl⟩ := h
      exact List.Forall₂.cons hcr (convRows_some_rel ht)

theorem convRows_none_forward {c : String} :
    ∀ {rows : List Row}, convRows c rows = none → ∃ r ∈ rows, convRow c r = none
  | r :: t, h => by
    simp only [convRows] at h
    cases hcr : convRow c r with
    | none => exact ⟨r, List.mem_cons_self _ _, hcr⟩
    | some r2 =>
      rw [hcr, Option.map_eq_none'] at h
      obtain ⟨w, hw, hwn⟩ := convRows_none_forward h
      exact ⟨w, List.mem_cons_of_mem _ hw, hwn⟩

theorem convRows_none_backward {c : String} {r : Row} (hrn : convRow c r = none) :
    ∀ {rows : List Row}, r ∈ rows → convRows c rows = none
  | r2 :: t, hm => by
    rcases List.mem_cons.mp hm with he | hm2
    · cases he
      simp [convRows, hrn]
    · have ht : convRows c t = none := convRows_none_backward hrn hm2
      simp only [convRows]
      cases hcr : convRow c r2 with
      | none => rfl
      | some rr => simp [ht]

theorem map_eq_of_forall₂ {α β γ : Type} {R : α → β → Prop} {f : α → γ} {g : β → γ}
    {l : List α} {l2 : List β} (h : List.Forall₂ R l l2) (hfg : ∀ a b, R a b → f a = g b) :
    l.map f = l2.map g := by
  induction h with
  | nil => rfl
  | cons hr _ ih => simp only [List.map_cons, hfg _ _ hr, ih]

theorem forall₂_mem_right {α β : Type} {R : α → β → Prop} {l : List α} {l2 : List β}
    (h : List.Forall₂ R l l2) {b : β} (hb : b ∈ l2) : ∃ a ∈ l, R a b := by
  induction h with
  | nil => cases hb
  | cons hr _ ih =>
    rcases List.mem_cons.mp hb with rfl | hb2
    · exact ⟨_, List.mem_cons_self _ _, hr⟩
    · obtain ⟨a, ha, har⟩ := ih hb2
      exact ⟨a, List.mem_cons_of_mem _ ha, har⟩

/-- All rows carry exactly the DataFrame's columns as keys, in order. -/
def DF.WellKeyed (df : DF) : Prop := ∀ row ∈ df.rows, row.map Prod.fst = df.cols

theorem colUnion_nodup (records : List Record) : (colUnion records).Nodup := by
  suffices hgen : ∀ (rs : List Record) (acc : List String), acc.Nodup →
      (rs.foldl (fun acc r =>
        acc ++ ((dedupF (r.map Prod.fst)).filter (fun k => !acc.contains k))) acc).Nodup by
    exact hgen records [] List.nodup_nil
  intro rs
  induction rs with
  | nil => exact fun acc h => h
  | cons r t ih =>
    intro acc hacc
    refine ih _ (List.Nodup.append hacc ((dedupF_nodup _).filter _) ?_)
    intro x hx hx2
    have := (List.mem_filter.mp hx2).2
    exact absurd hx (by simpa using this)

theorem ofRecords_wellKeyed (records : List Record) : (DF.ofRecords records).WellKeyed := by
  intro row hrow
  simp only [DF.ofRecords, List.mem_map] at hrow
  obtain ⟨rec, -, rfl⟩ := hrow
  simp [DF.ofRecords, List.map_map, Function.comp_def]

theorem dropCols_wellKeyed {df : DF} (bad : List String) (h : df.WellKeyed) :
    (df.dropCols bad).WellKeyed := by
  intro row hrow
  simp only [DF.dropCols, List.mem_map] at hrow
  obtain ⟨r, hr, rfl⟩ := hrow
  simp only [DF.dropCols]
  rw [← h r hr, List.filter_map]
  rfl

theorem toNumericCol_ok_struct {df df2 : DF} {c : String} (h : df.toNumericCol c = .ok df2) :
    df2.cols = df.cols ∧ df2.index = df.index
    ∧ ((df.cols.contains c = false ∧ df2.rows = df.rows)
       ∨ (df.cols.contains c = true
          ∧ List.Forall₂ (fun r r2 => convRow c r = some r2) df.rows df2.rows)) := by
  cases hc : df.cols.contains c with
  | false =>
    simp only [DF.toNumericCol, hc, Bool.false_eq_true, if_false] at h
    cases h
    exact ⟨rfl, rfl, Or.inl ⟨rfl, rfl⟩⟩
  | true =>
    simp only [DF.toNumericCol, hc, if_true] at h
    cases hcr : convRows c df.rows with
    | none => rw [hcr] at h; cases h
    | some rs =>
      rw [hcr] at h
      cases h
      exact ⟨rfl, rfl, Or.inr ⟨rfl, convRows_some_rel hcr⟩⟩

theorem rowVal_eq_of_lookup_eq {r r2 : Row} {c : String} (h : r2.lookup c = r.lookup c) :
    rowVal r2 c = rowVal r c := by
  simp [rowVal, h]

theorem toNumericCol_facts {df df2 : DF} {c : String} (h : df.toNumericCol c = .ok df2) :
    df2.cols = df.cols ∧ df2.index = df.index ∧ df2.rows.length = df.rows.length
    ∧ (∀ k, k ≠ c → df2.colVals k = df.colVals k)
    ∧ (df.cols.contains c = true → ∀ v ∈ df2.colVals c, v.isStr = false)
    ∧ (df.cols.contains c = false → df2.rows = df.rows)
    ∧ (∀ row2 ∈ df2.rows, ∃ row ∈ df.rows, row2.map Prod.fst = row.map Prod.fst
        ∧ ∀ k w, k ≠ c → (k, w) ∈ row2 → (k, w) ∈ row) := by
  obtain ⟨hcols, hidx, hrel⟩ := toNumericCol_ok_struct h
  rcases hrel with ⟨hnc, hrows⟩ | ⟨hct, hrel⟩
  · refine ⟨hcols, hidx, by rw [hrows], fun k _ => by rw [DF.colVals, DF.colVals, hrows],
      fun hcc => absurd (hnc ▸ hcc) Bool.false_ne_true, fun _ => hrows, ?_⟩
    intro row2 hrow2
    exact ⟨row2, hrows ▸ hrow2, rfl, fun k w _ hm => hm⟩
  · refine ⟨hcols, hidx, (List.Forall₂.length_eq hrel).symm, ?_, ?_,
      fun hf => absurd (hf ▸ hct) (by simp), ?_⟩
    · intro k hk
      exact (map_eq_of_forall₂ hrel (fun r r2 hr =>
        (rowVal_eq_of_lookup_eq (convRow_lookup_other hk hr)).symm)).symm
    · intro hcc v hv
      simp only [DF.colVals, List.mem_map] at hv
      obtain ⟨row2, hrow2, rfl⟩ := hv
      obtain ⟨row, hrowm, hr⟩ := forall₂_mem_right hrel hrow2
      have hl := convRow_lookup_self hr
      rw [rowVal, hl]
      cases hlo : row.lookup c with
      | none => rfl
      | some v0 =>
        cases htn : toNumericVal v0 with
        | none => simp [htn, Val.isStr]
        | some v2 => simp [htn, toNumericVal_not_str htn]
    · intro row2 hrow2
      obtain ⟨row, hrow, hr⟩ := forall₂_mem_right hrel hrow2
      exact ⟨row, hrow, convRow_keys hr, fun k w hk hm => convRow_entry_rev hk hr hm⟩

theorem dropCols_colVals {df : DF} {bad : List String} {c : String}
    (hc : bad.contains c = false) : (df.dropCols bad).colVals c = df.colVals c := by
  simp only [DF.dropCols, DF.colVals, List.map_map]
  refine List.map_congr_left (fun r _ => ?_)
  simp only [Function.comp_def, rowVal]
  rw [lookup_filter_key (q := fun k => !bad.contains k) (by show (!bad.contains c) = true; rw [hc]; rfl) r]

theorem wellKeyed_colVals_null {df : DF} {c : String} (hw : df.WellKeyed)
    (hc : df.cols.contains c = false) : ∀ v ∈ df.colVals c, v = Val.null := by
  intro v hv
  simp only [DF.colVals, List.mem_map] at hv
  obtain ⟨row, hrow, rfl⟩ := hv
  have hkeys := hw row hrow
  have hnm : row.lookup c = none := by
    rw [List.lookup_eq_none_iff]
    intro p hp
    have : p.1 ∈ df.cols := hkeys ▸ List.mem_map_of_mem Prod.fst hp
    simp only [bne_iff_ne, ne_eq]
    intro he
    rw [← he] at this
    exact absurd (by simpa using this) (by simpa using hc)
  simp [rowVal, hnm]

theorem ofRecords_cols (records : List Record) : (DF.ofRecords records).cols = colUnion records := rfl

theorem ofRecords_index (records : List Record) :
    (DF.ofRecords records).index = List.range records.length := rfl

theorem ofRecords_length (records : List Record) :
    (DF.ofRecords records).rows.length = records.length := by
  simp [DF.ofRecords]

theorem dropCols_index (df : DF) (bad : List String) : (df.dropCols bad).index = df.index := rfl

theorem dropCols_length (df : DF) (bad : List String) :
    (df.dropCols bad).rows.length = df.rows.length := by
  simp [DF.dropCols]

theorem contains_eq_mem_str (l : List String) (c : String) : l.contains c = decide (c ∈ l) :=
  List.elem_eq_mem c l

theorem mem_of_contains {l : List String} {c : String} (h : l.contains c = true) : c ∈ l := by
  rw [contains_eq_mem_str] at h
  exact of_decide_eq_true h

theorem contains_of_mem {l : List String} {c : String} (h : c ∈ l) : l.contains c = true := by
  rw [contains_eq_mem_str]
  exact decide_eq_true h

/-- Claim C2: after normalization the metadata columns are absent, every value
of a present declared-numeric column is of numeric dtype (a number or the NaN
a null becomes — never a string), column order is the input column order minus
the dropped columns, row count and order are preserved (the original
`RangeIndex` survives untouched), and the values of every retained
non-numeric column are exactly the input values in order. -/
theorem jsonToDf_normalization_shape {data : List Record} {df : DF}
    (h : json_to_df data = .ok df) :
    (∀ c, metadataCols.contains c = true → df.cols.contains c = false)
    ∧ (∀ c, numericCols.contains c = true → ∀ v ∈ df.colVals c, v.isStr = false)
    ∧ df.cols = (DF.ofRecords data).cols.filter (fun c => !metadataCols.contains c)
    ∧ df.index = List.range data.length
    ∧ df.rows.length = data.length
    ∧ (∀ c, df.cols.contains c = true → numericCols.contains c = false →
        df.colVals c = (DF.ofRecords data).colVals c) := by
  rw [json_to_df] at h
  obtain ⟨d1, h1, h⟩ := except_bind_ok h
  obtain ⟨d2, h2, h⟩ := except_bind_ok h
  obtain ⟨d3, h3, h⟩ := except_bind_ok h
  obtain ⟨d4, h4, h⟩ := except_bind_ok h
  cases h
  obtain ⟨c1, i1, l1, p1, s1, a1, k1⟩ := toNumericCol_facts h1
  obtain ⟨c2, i2, l2, p2, s2, a2, k2⟩ := toNumericCol_facts h2
  obtain ⟨c3, i3, l3, p3, s3, a3, k3⟩ := toNumericCol_facts h3
  obtain ⟨c4, i4, l4, p4, s4, a4, k4⟩ := toNumericCol_facts h4
  have hwk : ((DF.ofRecords data).dropCols metadataCols).WellKeyed :=
    dropCols_wellKeyed metadataCols (ofRecords_wellKeyed data)
  have hcols : df.cols = (DF.ofRecords data).cols.filter (fun c => !metadataCols.contains c) := by
    rw [c4, c3, c2, c1]; rfl
  refine ⟨?_, ?_, hcols, ?_, ?_, ?_⟩
  · intro c hc
    rw [hcols, contains_eq_mem_str]
    simp only [List.mem_filter, decide_eq_false_iff_not]
    rintro ⟨-, hpred⟩
    rw [contains_of_mem (mem_of_contains hc)] at hpred
    cases hpred
  · intro c hc v hv
    have hmem : c ∈ numericCols := mem_of_contains hc
    have habs : ∀ e : DF, e.WellKeyed → e.cols.contains c = false →
        ∀ w ∈ e.colVals c, w.isStr = false := by
      intro e hw hcf w hwv
      rw [wellKeyed_colVals_null hw hcf w hwv]
      rfl
    simp only [numericCols, List.mem_cons, List.not_mem_nil, or_false] at hmem
    rcases hmem with rfl | rfl | rfl | rfl
    · rw [p4 _ (by decide), p3 _ (by decide), p2 _ (by decide)] at hv
      cases hdc : ((DF.ofRecords data).dropCols metadataCols).cols.contains "data_value" with
      | true => exact s1 hdc v hv
      | false =>
        rw [DF.colVals, a1 hdc, ← DF.colVals] at hv
        exact habs _ hwk hdc v hv
    · rw [p4 _ (by decide), p3 _ (by decide)] at hv
      cases hdc : d1.cols.contains "low_confidence_limit" with
      | true => exact s2 hdc v hv
      | false =>
        rw [DF.colVals, a2 hdc, ← DF.colVals, p1 _ (by decide)] at hv
        refine habs _ hwk ?_ v hv
        rw [← c1]; exact hdc
    · rw [p4 _ (by decide)] at hv
      cases hdc : d2.cols.contains "high_confidence_limit" with
      | true => exact s3 hdc v hv
      | false =>
        rw [DF.colVals, a3 hdc, ← DF.colVals, p2 _ (by decide), p1 _ (by decide)] at hv
        refine habs _ hwk ?_ v hv
        rw [← c1, ← c2]; exact hdc
    · cases hdc : d3.cols.contains "totalpopulation" with
      | true => exact s4 hdc v hv
      | false =>
        rw [DF.colVals, a4 hdc, ← DF.colVals, p3 _ (by decide), p2 _ (by decide),
          p1 _ (by decide)] at hv
        refine habs _ hwk ?_ v hv
        rw [← c1, ← c2, ← c3]; exact hdc
  · rw [i4, i3, i2, i1]; rfl
  · rw [l4, l3, l2, l1, dropCols_length, ofRecords_length]
  · intro c hcc hnc
    have hnm : c ∉ numericCols := fun hm => by rw [contains_of_mem hm] at hnc; cases hnc
    have hn1 : c ≠ "data_value" := fun he => hnm (he ▸ (by decide))
    have hn2 : c ≠ "low_confidence_limit" := fun he => hnm (he ▸ (by decide))
    have hn3 : c ≠ "high_confidence_limit" := fun he => hnm (he ▸ (by decide))
    have hn4 : c ≠ "totalpopulation" := fun he => hnm (he ▸ (by decide))
    rw [p4 _ hn4, p3 _ hn3, p2 _ hn2, p1 _ hn1]
    have hmf : metadataCols.contains c = false := by
      rw [hcols] at hcc
      have := List.mem_filter.mp (mem_of_contains hcc)
      cases hb : metadataCols.contains c with
      | false => rfl
      | true => rw [hb] at this; exact absurd this.2 (by simp)
    exact dropCols_colVals hmf

theorem toNumericVal_none_elim {v : Val} (h : toNumericVal v = none) :
    ∃ s, v = Val.str s ∧ parseDecimal s = none := by
  cases v with
  | null => cases h
  | num q => cases h
  | str s =>
    simp only [toNumericVal, Option.map_eq_none'] at h
    exact ⟨s, rfl, h⟩

theorem toNumericCol_error {df : DF} {c : String} {e : PErr}
    (h : df.toNumericCol c = .error e) :
    e = PErr.toNumericError ∧ df.cols.contains c = true
    ∧ ∃ row ∈ df.rows, ∃ v, (c, v) ∈ row ∧ toNumericVal v = none := by
  cases hc : df.cols.contains c with
  | false =>
    simp only [DF.toNumericCol, hc, Bool.false_eq_true, if_false] at h
    cases h
  | true =>
    simp only [DF.toNumericCol, hc, if_true] at h
    cases hcr : convRows c df.rows with
    | some rs => rw [hcr] at h; cases h
    | none =>
      rw [hcr] at h
      cases h
      obtain ⟨r, hr, hrn⟩ := convRows_none_forward hcr
      obtain ⟨v, hv, hvn⟩ := convRow_none_forward hrn
      exact ⟨rfl, rfl, r, hr, v, hv, hvn⟩

theorem rowVal_of_entry_nodup {row : Row} {c : String} {v : Val}
    (nd : (row.map Prod.fst).Nodup) (hm : (c, v) ∈ row) : rowVal row c = v := by
  rw [rowVal, lookup_of_mem_nodupkeys nd hm]
  rfl

theorem lookup_eq_some_of_rowVal_str {row : Row} {c : String} {s : String}
    (h : rowVal row c = Val.str s) : row.lookup c = some (Val.str s) := by
  rw [rowVal] at h
  cases hlk : row.lookup c with
  | none => rw [hlk] at h; cases h
  | some w =>
    rw [hlk] at h
    simp only [Option.getD_some] at h
    rw [h]

theorem toNumericCol_error_of_bad {df : DF} {c : String} {s : String}
    (hcc : df.cols.contains c = true) (hv : Val.str s ∈ df.colVals c)
    (hp : parseDecimal s = none) : df.toNumericCol c = .error PErr.toNumericError := by
  simp only [DF.colVals, List.mem_map] at hv
  obtain ⟨row, hrow, hrv⟩ := hv
  have hlk : row.lookup c = some (Val.str s) := lookup_eq_some_of_rowVal_str hrv
  have hm := mem_of_lookup_eq_some hlk
  have htn : toNumericVal (Val.str s) = none := by simp [toNumericVal, hp]
  have hcrows := convRows_none_backward (convRow_none_backward htn hm) hrow
  simp only [DF.toNumericCol, hcc, if_true, hcrows]

/-- Claim C3: normalization fails (always with the `pd.to_numeric` ValueError,
the spec's `DataFormatError`) exactly when one of the four declared-numeric
columns holds a value that is a non-null string not parseable as a number;
nulls never cause failure. -/
theorem jsonToDf_error_iff_bad_numeric (data : List Record) :
    (∀ e, json_to_df data = .error e → e = PErr.toNumericError)
    ∧ (json_to_df data = .error PErr.toNumericError ↔
        ∃ c s, numericCols.contains c = true
          ∧ Val.str s ∈ ((DF.ofRecords data).dropCols metadataCols).colVals c
          ∧ parseDecimal s = none) := by
  have hwk : ((DF.ofRecords data).dropCols metadataCols).WellKeyed :=
    dropCols_wellKeyed metadataCols (ofRecords_wellKeyed data)
  have hnd : ((DF.ofRecords data).dropCols metadataCols).cols.Nodup :=
    List.Nodup.filter _ (colUnion_nodup data)
  have toBadCol : ∀ {c : String} {row : Row} {v : Val},
      row ∈ ((DF.ofRecords data).dropCols metadataCols).rows → (c, v) ∈ row →
      toNumericVal v = none →
      ∃ s, Val.str s ∈ ((DF.ofRecords data).dropCols metadataCols).colVals c
        ∧ parseDecimal s = none := by
    intro c row v hrow hm hvn
    obtain ⟨s, rfl, hp⟩ := toNumericVal_none_elim hvn
    have hrv : rowVal row c = Val.str s := rowVal_of_entry_nodup (hwk row hrow ▸ hnd) hm
    exact ⟨s, List.mem_map.mpr ⟨row, hrow, hrv⟩, hp⟩
  have hcont : ∀ {c s : String},
      Val.str s ∈ ((DF.ofRecords data).dropCols metadataCols).colVals c →
      ((DF.ofRecords data).dropCols metadataCols).cols.contains c = true := by
    intro c s hv2
    obtain ⟨row, hrow, hrv⟩ := List.mem_map.mp hv2
    have hm := mem_of_lookup_eq_some (lookup_eq_some_of_rowVal_str hrv)
    have hk : c ∈ row.map Prod.fst := List.mem_map_of_mem Prod.fst hm
    rw [hwk row hrow] at hk
    exact contains_of_mem hk
  have part1 : ∀ e, json_to_df data = .error e → e = PErr.toNumericError := by
    intro e h
    rw [json_to_df] at h
    rcases except_bind_error h with h1e | ⟨d1, h1, h⟩
    · exact (toNumericCol_error h1e).1
    rcases except_bind_error h with h2e | ⟨d2, h2, h⟩
    · exact (toNumericCol_error h2e).1
    rcases except_bind_error h with h3e | ⟨d3, h3, h⟩
    · exact (toNumericCol_error h3e).1
    rcases except_bind_error h with h4e | ⟨d4, h4, h⟩
    · exact (toNumericCol_error h4e).1
    · cases h
  refine ⟨part1, ?_, ?_⟩
  · intro h
    rw [json_to_df] at h
    rcases except_bind_error h with h1e | ⟨d1, h1, h⟩
    · obtain ⟨-, -, row, hrow, v, hv, hvn⟩ := toNumericCol_error h1e
      obtain ⟨s, hs, hp⟩ := toBadCol hrow hv hvn
      exact ⟨"data_value", s, by decide, hs, hp⟩
    obtain ⟨-, -, -, -, -, -, k1⟩ := toNumericCol_facts h1
    rcases except_bind_error h with h2e | ⟨d2, h2, h⟩
    · obtain ⟨-, -, row2, hrow2, v, hv, hvn⟩ := toNumericCol_error h2e
      obtain ⟨row0, hrow0, -, hback⟩ := k1 row2 hrow2
      obtain ⟨s, hs, hp⟩ := toBadCol hrow0 (hback _ v (by decide) hv) hvn
      exact ⟨"low_confidence_limit", s, by decide, hs, hp⟩
    obtain ⟨-, -, -, -, -, -, k2⟩ := toNumericCol_facts h2
    rcases except_bind_error h with h3e | ⟨d3, h3, h⟩
    · obtain ⟨-, -, row3, hrow3, v, hv, hvn⟩ := toNumericCol_error h3e
      obtain ⟨row1, hrow1, -, hback2⟩ := k2 row3 hrow3
      obtain ⟨row0, hrow0, -, hback1⟩ := k1 row1 hrow1
      obtain ⟨s, hs, hp⟩ :=
        toBadCol hrow0 (hback1 _ v (by decide) (hback2 _ v (by decide) hv)) hvn
      exact ⟨"high_confidence_limit", s, by decide, hs, hp⟩
    obtain ⟨-, -, -, -, -, -, k3⟩ := toNumericCol_facts h3
    rcases except_bind_error h with h4e | ⟨d4, h4, h⟩
    · obtain ⟨-, -, row4, hrow4, v, hv, hvn⟩ := toNumericCol_error h4e
      obtain ⟨row2, hrow2, -, hback3⟩ := k3 row4 hrow4
      obtain ⟨row1, hrow1, -, hback2⟩ := k2 row2 hrow2
      obtain ⟨row0, hrow0, -, hback1⟩ := k1 row1 hrow1
      obtain ⟨s, hs, hp⟩ := toBadCol hrow0
        (hback1 _ v (by decide) (hback2 _ v (by decide) (hback3 _ v (by decide) hv))) hvn
      exact ⟨"totalpopulation", s, by decide, hs, hp⟩
    · cases h
  · rintro ⟨c, s, hcn, hv, hp⟩
    cases hj : json_to_df data with
    | error e => rw [part1 e hj]
    | ok df =>
      exfalso
      rw [json_to_df] at hj
      obtain ⟨d1, h1, hj⟩ := except_bind_ok hj
      obtain ⟨d2, h2, hj⟩ := except_bind_ok hj
      obtain ⟨d3, h3, hj⟩ := except_bind_ok hj
      obtain ⟨d4, h4, hj⟩ := except_bind_ok hj
      obtain ⟨c1, -, -, p1, -, -, -⟩ := toNumericCol_facts h1
      obtain ⟨c2, -, -, p2, -, -, -⟩ := toNumericCol_facts h2
      obtain ⟨c3, -, -, p3, -, -, -⟩ := toNumericCol_facts h3
      have hmem : c ∈ numericCols := mem_of_contains hcn
      simp only [numericCols, List.mem_cons, List.not_mem_nil, or_false] at hmem
      rcases hmem with rfl | rfl | rfl | rfl
      · rw [toNumericCol_error_of_bad (hcont hv) hv hp] at h1
        cases h1
      · have hv1 : Val.str s ∈ d1.colVals "low_confidence_limit" := by
          rw [p1 _ (by decide)]; exact hv
        have hc1 : d1.cols.contains "low_confidence_limit" = true := by
          rw [c1]; exact hcont hv
        rw [toNumericCol_error_of_bad hc1 hv1 hp] at h2
        cases h2
      · have hv2 : Val.str s ∈ d2.colVals "high_confidence_limit" := by
          rw [p2 _ (by decide), p1 _ (by decide)]; exact hv
        have hc2 : d2.cols.contains "high_confidence_limit" = true := by
          rw [c2, c1]; exact hcont hv
        rw [toNumericCol_error_of_bad hc2 hv2 hp] at h3
        cases h3
      · have hv3 : Val.str s ∈ d3.colVals "totalpopulation" := by
          rw [p3 _ (by decide), p2 _ (by decide), p1 _ (by decide)]; exact hv
        have hc3 : d3.cols.contains "totalpopulation" = true := by
          rw [c3, c2, c1]; exact hcont hv
        rw [toNumericCol_error_of_bad hc3 hv3 hp] at h4
        cases h4

/-- Witness for C2 at the mocked test record. -/
theorem jsonToDf_normalization_shape_witness :
    json_to_df [mockRecord] = .ok mockCountyResult
    ∧ ((∀ c, metadataCols.contains c = true → mockCountyResult.cols.contains c = false)
       ∧ (∀ c, numericCols.contains c = true →
            ∀ v ∈ mockCountyResult.colVals c, v.isStr = false)
       ∧ mockCountyResult.cols
          = (DF.ofRecords [mockRecord]).cols.filter (fun c => !metadataCols.contains c)
       ∧ mockCountyResult.index = List.range [mockRecord].length
       ∧ mockCountyResult.rows.length = [mockRecord].length
       ∧ (∀ c, mockCountyResult.cols.contains c = true → numericCols.contains c = false →
           mockCountyResult.colVals c = (DF.ofRecords [mockRecord]).colVals c)) :=
  ⟨by decide, jsonToDf_normalization_shape (by decide)⟩

/-- Witness for C3: a record whose `data_value` is the unparseable string
"abc" makes normalization fail with the coercion error. -/
theorem jsonToDf_error_iff_bad_numeric_witness :
    json_to_df [[("data_value", Val.str "abc")]] = .error PErr.toNumericError :=
  (jsonToDf_error_iff_bad_numeric [[("data_value", Val.str "abc")]]).2.mpr
    ⟨"data_value", "abc", by decide, by decide, by decide⟩

/-- Claim C1: whatever a supported release's fetch returns, every row of the
resulting table is in one of the two covered categories with a non-null
`data_value`, the index is re-built contiguously from 0, and the rows are
exactly the normalized rows surviving the two filters, in order. -/
theorem getCountyData_rows_covered_and_reindexed
    (fetch : String → List Record) (rel : PyArg) (df : DF)
    (h : get_county_data fetch rel = .ok df) :
    (∀ row ∈ df.rows,
      (rowVal row "categoryid" = Val.str "HLTHOUT" ∨ rowVal row "categoryid" = Val.str "RISKBEH")
      ∧ rowVal row "data_value" ≠ Val.null)
    ∧ df.index = List.range df.rows.length
    ∧ ∃ s rid ndf, rel = PyArg.pyStr s ∧ release_ids.lookup s = some rid
        ∧ json_to_df (fetch (base_url ++ rid ++ "/query.json")) = .ok ndf
        ∧ df.rows = (ndf.rows.filter coveredCategory).filter hasDataValue := by
  cases rel with
  | nonStr => cases h
  | pyStr s =>
    rw [get_county_data] at h
    cases hl : release_ids.lookup s with
    | none => rw [hl] at h; cases h
    | some rid =>
      rw [hl] at h
      obtain ⟨ndf, hn, h⟩ := except_bind_ok h
      obtain ⟨df1, hf1, h⟩ := except_bind_ok h
      obtain ⟨df2, hf2, h⟩ := except_bind_ok h
      cases h
      have hdf1 : df1 = ndf.filterRows coveredCategory := by
        cases hc : ndf.cols.contains "categoryid" with
        | false => simp only [DF.isinFilter, hc, Bool.false_eq_true, if_false] at hf1; cases hf1
        | true =>
          simp only [DF.isinFilter, hc, if_true] at hf1
          cases hf1
          rfl
      have hdf2 : df2 = (df1.reset_index).filterRows hasDataValue := by
        cases hfind : (["data_value"].find? (fun c => !(df1.reset_index).cols.contains c)) with
        | some c => simp only [DF.dropnaSubset, hfind] at hf2; cases hf2
        | none =>
          simp only [DF.dropnaSubset, hfind] at hf2
          cases hf2
          rfl
      subst hdf1
      subst hdf2
      refine ⟨?_, rfl, s, rid, ndf, rfl, hl, hn, rfl⟩
      intro row hrow
      have hrow2 : row ∈ (ndf.rows.filter coveredCategory).filter hasDataValue := hrow
      have hdv := List.of_mem_filter hrow2
      have hcv := List.of_mem_filter (List.mem_of_mem_filter hrow2)
      constructor
      · simpa [coveredCategory, List.any_cons, List.any_nil, decide_eq_true_eq] using hcv
      · simpa [hasDataValue] using hdv

/-- Witness for C1 at the mocked fixture of the repository's test suite. -/
theorem getCountyData_rows_covered_and_reindexed_witness :
    get_county_data mockFetch (PyArg.pyStr "2022") = .ok mockCountyResult
    ∧ ((∀ row ∈ mockCountyResult.rows,
         (rowVal row "categoryid" = Val.str "HLTHOUT"
            ∨ rowVal row "categoryid" = Val.str "RISKBEH")
         ∧ rowVal row "data_value" ≠ Val.null)
       ∧ mockCountyResult.index = List.range mockCountyResult.rows.length
       ∧ ∃ s rid ndf, PyArg.pyStr "2022" = PyArg.pyStr s ∧ release_ids.lookup s = some rid
           ∧ json_to_df (mockFetch (base_url ++ rid ++ "/query.json")) = .ok ndf
           ∧ mockCountyResult.rows = (ndf.rows.filter coveredCategory).filter hasDataValue) :=
  ⟨by decide, getCountyData_rows_covered_and_reindexed mockFetch (PyArg.pyStr "2022")
      mockCountyResult (by decide)⟩

/-- The row predicate one optional criterion induces: an omitted or empty
criterion keeps every row, a non-empty one keeps the rows whose cell is a
member of the set. -/
def critPred (crit : Option (List String)) (col : String) (row : Row) : Bool :=
  match crit with
  | none => true
  | some vals =>
    if vals.isEmpty then true
    else vals.any (fun s => decide (rowVal row col = Val.str s))

theorem applyCriterion_ok {df df2 : DF} {col : String} {crit : Option (List String)}
    (h : applyCriterion df col crit = .ok df2) :
    df2.cols = df.cols ∧ df2.rows = df.rows.filter (critPred crit col) := by
  cases crit with
  | none =>
    cases h
    exact ⟨rfl, (List.filter_true df.rows).symm⟩
  | some vals =>
    by_cases he : vals.isEmpty
    · simp only [applyCriterion, he, if_true] at h
      cases h
      refine ⟨rfl, ?_⟩
      rw [show (critPred (some vals) col) = fun _ => true by
        funext row; simp [critPred, he]]
      exact (List.filter_true df.rows).symm
    · simp only [applyCriterion, he, if_false] at h
      cases hc : df.cols.contains col with
      | false => rw [DF.isinFilter, hc] at h; cases h
      | true =>
        rw [DF.isinFilter, hc] at h
        simp only [if_true] at h
        cases h
        refine ⟨rfl, ?_⟩
        refine (List.filter_congr ?_).symm
        intro row _
        simp [critPred, he]

/-- Claim C5 as amended: whenever `filterByMeasures` returns, the result's
rows are exactly the input rows passing all provided criteria conjunctively
(in the order measures, categories, measureIds), where a non-empty criterion
means membership of the corresponding column value in the set and an omitted
— or, contrary to the original claim, empty — criterion keeps every row. -/
theorem filterByMeasures_ok_rows_filter (df : DF) (m c mi : Option (List String)) (df2 : DF)
    (h : filter_by_measures df m c mi = .ok df2) :
    df2.cols = df.cols
    ∧ df2.rows = df.rows.filter (fun row =>
        critPred m "short_question_text" row && critPred c "category" row
          && critPred mi "measureid" row) := by
  obtain ⟨s1, h1, h⟩ := except_bind_ok h
  obtain ⟨s2, h2, h⟩ := except_bind_ok h
  obtain ⟨hc1, hr1⟩ := applyCriterion_ok h1
  obtain ⟨hc2, hr2⟩ := applyCriterion_ok h2
  obtain ⟨hc3, hr3⟩ := applyCriterion_ok h
  refine ⟨by rw [hc3, hc2, hc1], ?_⟩
  rw [hr3, hr2, hr1, List.filter_filter, List.filter_filter]
  refine List.filter_congr ?_
  intro row _
  cases critPred m "short_question_text" row <;> cases critPred c "category" row <;>
    cases critPred mi "measureid" row <;> rfl

/-- The three-measure fixture of the repository's `test_filter_by_measures`. -/
def measuresFixture : DF :=
  { cols := ["measureid", "short_question_text", "category", "category_id", "data_value"]
    index := [0, 1, 2]
    rows := [[("measureid", Val.str "CHD"),
              ("short_question_text", Val.str "Coronary Heart Disease"),
              ("category", Val.str "Health Outcomes"), ("category_id", Val.str "HLTHOUT"),
              ("data_value", Val.num 10)],
             [("measureid", Val.str "DIABETES"), ("short_question_text", Val.str "diabetes"),
              ("category", Val.str "Health Outcomes"), ("category_id", Val.str "HLTHOUT"),
              ("data_value", Val.num 20)],
             [("measureid", Val.str "ARTHRITIS"), ("short_question_text", Val.str "Arthritis"),
              ("category", Val.str "Health Outcomes"), ("category_id", Val.str "HLTHOUT"),
              ("data_value", Val.num 30)]] }

/-- The CHD-only table `filterByMeasures` returns on the fixture. -/
def chdResult : DF :=
  { cols := ["measureid", "short_question_text", "category", "category_id", "data_value"]
    index := [0]
    rows := [[("measureid", Val.str "CHD"),
              ("short_question_text", Val.str "Coronary Heart Disease"),
              ("category", Val.str "Health Outcomes"), ("category_id", Val.str "HLTHOUT"),
              ("data_value", Val.num 10)]] }

/-- Counterexample to claim C5's empty-set case: with `measure_ids = []` the
code keeps all three rows (Python truthiness skips the step), whereas
membership of `measureid` in the empty set holds for no row, so the claim
demands an empty result. -/
theorem filterByMeasures_empty_set_counterexample :
    filter_by_measures measuresFixture none none (some []) = .ok measuresFixture
    ∧ measuresFixture.rows.length = 3
    ∧ measuresFixture.rows.filter
        (fun row => ([] : List String).any
          (fun s => decide (rowVal row "measureid" = Val.str s))) = [] :=
  ⟨rfl, rfl, by decide⟩

/-- Witness for C5 as amended, at the fixture and `measureIds = ["CHD"]`: the
result is exactly the CHD row. -/
theorem filterByMeasures_ok_rows_filter_witness :
    filter_by_measures measuresFixture none none (some ["CHD"]) = .ok chdResult
    ∧ (chdResult.cols = measuresFixture.cols
       ∧ chdResult.rows = measuresFixture.rows.filter (fun row =>
           critPred none "short_question_text" row && critPred none "category" row
             && critPred (some ["CHD"]) "measureid" row)) :=
  ⟨by decide,
   filterByMeasures_ok_rows_filter measuresFixture none none (some ["CHD"]) chdResult (by decide)⟩

theorem foldl_choice_mem {f : ℚ → ℚ → ℚ} (hf : ∀ x y, f x y = x ∨ f x y = y) :
    ∀ (vs : List ℚ) (v : ℚ), vs.foldl f v ∈ v :: vs
  | [], v => List.mem_cons_self v []
  | a :: t, v => by
    rw [List.foldl_cons]
    have hm := foldl_choice_mem hf t (f v a)
    rcases List.mem_cons.mp hm with he | ht
    · rcases hf v a with hfa | hfa
      · rw [he, hfa]; exact List.mem_cons_self _ _
      · rw [he, hfa]; exact List.mem_cons_of_mem _ (List.mem_cons_self _ _)
    · exact List.mem_cons_of_mem _ (List.mem_cons_of_mem _ ht)

theorem foldl_min_le :
    ∀ (vs : List ℚ) (v : ℚ), ∀ w ∈ v :: vs, vs.foldl min v ≤ w
  | [], v, w, hw => by
    rcases List.mem_cons.mp hw with rfl | hw2
    · exact le_refl w
    · cases hw2
  | a :: t, v, w, hw => by
    rw [List.foldl_cons]
    have ih := foldl_min_le t (min v a)
    rcases List.mem_cons.mp hw with he | hw2
    · subst he
      exact le_trans (ih _ (List.mem_cons_self _ _)) (min_le_left w a)
    rcases List.mem_cons.mp hw2 with he | hw3
    · subst he
      exact le_trans (ih _ (List.mem_cons_self _ _)) (min_le_right v w)
    · exact ih w (List.mem_cons_of_mem _ hw3)

theorem foldl_le_max :
    ∀ (vs : List ℚ) (v : ℚ), ∀ w ∈ v :: vs, w ≤ vs.foldl max v
  | [], v, w, hw => by
    rcases List.mem_cons.mp hw with rfl | hw2
    · exact le_refl w
    · cases hw2
  | a :: t, v, w, hw => by
    rw [List.foldl_cons]
    have ih := foldl_le_max t (max v a)
    rcases List.mem_cons.mp hw with he | hw2
    · subst he
      exact le_trans (le_max_left w a) (ih _ (List.mem_cons_self _ _))
    rcases List.mem_cons.mp hw2 with he | hw3
    · subst he
      exact le_trans (le_max_right v w) (ih _ (List.mem_cons_self _ _))
    · exact ih w (List.mem_cons_of_mem _ hw3)

/-- Claim C7: `summarizeMeasure` filters to the rows of the requested measure
and reports the count, the mean (sum over count), and the least and greatest
`data_value` among them. -/
theorem summarizeMeasure_stats (df : DF) (measureId : String) (s : Summary)
    (h : summarize_measure df measureId = some s) :
    measureVals df measureId ≠ []
    ∧ s.count = (measureVals df measureId).length
    ∧ s.mean = qdiv (qsum (measureVals df measureId)) ((measureVals df measureId).length : ℚ)
    ∧ s.smin ∈ measureVals df measureId
    ∧ (∀ v ∈ measureVals df measureId, s.smin ≤ v)
    ∧ s.smax ∈ measureVals df measureId
    ∧ (∀ v ∈ measureVals df measureId, v ≤ s.smax) := by
  rw [summarize_measure] at h
  cases hmv : measureVals df measureId with
  | nil => rw [hmv] at h; cases h
  | cons v vs =>
    rw [hmv] at h
    cases h
    exact ⟨by simp, rfl, rfl, foldl_choice_mem min_choice vs v, foldl_min_le vs v,
      foldl_choice_mem max_choice vs v, foldl_le_max vs v⟩

/-- The fixture of the repository's `test_summarize_measure`. -/
def summarizeFixture : DF :=
  { cols := ["measureid", "data_value"]
    index := [0, 1, 2]
    rows := [[("measureid", Val.str "X"), ("data_value", Val.num 1)],
             [("measureid", Val.str "X"), ("data_value", Val.num 2)],
             [("measureid", Val.str "X"), ("data_value", Val.num 3)]] }

/-- Witness for C7 at the fixture: data_value = [1, 2, 3] gives mean 2,
min 1, max 3, count 3. -/
theorem summarizeMeasure_stats_witness :
    summarize_measure summarizeFixture "X" = some (Summary.mk 2 1 3 3)
    ∧ (measureVals summarizeFixture "X" ≠ []
       ∧ (Summary.mk 2 1 3 3).count = (measureVals summarizeFixture "X").length
       ∧ (Summary.mk 2 1 3 3).mean
          = qdiv (qsum (measureVals summarizeFixture "X"))
              ((measureVals summarizeFixture "X").length : ℚ)
       ∧ (Summary.mk 2 1 3 3).smin ∈ measureVals summarizeFixture "X"
       ∧ (∀ v ∈ measureVals summarizeFixture "X", (Summary.mk 2 1 3 3).smin ≤ v)
       ∧ (Summary.mk 2 1 3 3).smax ∈ measureVals summarizeFixture "X"
       ∧ (∀ v ∈ measureVals summarizeFixture "X", v ≤ (Summary.mk 2 1 3 3).smax)) :=
  ⟨by decide, summarizeMeasure_stats summarizeFixture "X" (Summary.mk 2 1 3 3) (by decide)⟩

/-- The `isin` predicate `get_correlation` filters with: the row's measure is
one of the two requested identifiers. -/
def isinXY (x y : String) (row : Row) : Bool :=
  [x, y].any (fun s => decide (rowVal row "measureid" = Val.str s))

/-- The rows of either requested measure. -/
def coRows (df : DF) (x y : String) : List Row := df.rows.filter (isinXY x y)

/-- The distinct non-null locations carrying either requested measure. -/
def coLocs (df : DF) (x y : String) : List Val :=
  dedupF (keyVals (coRows df x y) "locationname")

/-- The aggregated county-level cell of one measure at one location, computed
directly on the input table. -/
def cellOf (df : DF) (m : String) (l : Val) : Option ℚ := groupMean df.rows l (Val.str m)

/-- The locations with a value for both requested measures: the complete
pairs the correlation is computed over. -/
def pairedLocs (df : DF) (x y : String) : List Val :=
  (coLocs df x y).filter (fun l => (cellOf df x l).isSome && (cellOf df y l).isSome)

/-- The distinct non-null measure keys among the rows of the two requested
measures. -/
def coMeas (df : DF) (x y : String) : List Val := dedupF (keyVals (coRows df x y) "measureid")

/-- The aggregated cell function of the restricted pivot. -/
def gFun (df : DF) (x y : String) (l m : Val) : Option ℚ := groupMean (coRows df x y) l m

/-- The measure columns surviving the all-NaN column drop. -/
def coMeasKept (df : DF) (x y : String) : List Val :=
  (coMeas df x y).filter (fun m => (coLocs df x y).any (fun l => (gFun df x y l m).isSome))

/-- The locations surviving `dropna()` over the kept columns. -/
def keptLocs (df : DF) (x y : String) : List Val :=
  (coLocs df x y).filter (fun l => (coMeasKept df x y).all (fun m => (gFun df x y l m).isSome))

theorem zip_self_map {α β : Type} (L : List α) (f : α → β) :
    L.zip (L.map f) = L.map (fun a => (a, f a)) := by
  induction L with
  | nil => rfl
  | cons a t ih => simp [ih]

theorem getD_map_lt {α β : Type} (f : α → β) {l : List α} {j : Nat} (h : j < l.length)
    (d : α) (d2 : β) : (l.map f).getD j d2 = f (l.getD j d) := by
  rw [List.getD_eq_getElem?_getD, List.getD_eq_getElem?_getD, List.getElem?_map,
    List.getElem?_eq_getElem h]
  rfl

theorem colIdx_some {m : Val} :
    ∀ {l : List Val} {j : Nat}, colIdx m l = some j → j < l.length ∧ ∀ d, l.getD j d = m
  | a :: t, j, h => by
    by_cases ha : a = m
    · simp only [colIdx, if_pos ha] at h
      cases h
      exact ⟨Nat.succ_pos _, fun d => ha⟩
    · simp only [colIdx, if_neg ha, Option.map_eq_some'] at h
      obtain ⟨j2, hj2, rfl⟩ := h
      obtain ⟨hlt, hget⟩ := colIdx_some hj2
      exact ⟨Nat.succ_lt_succ hlt, fun d => hget d⟩

theorem colIdx_mem {m : Val} {l : List Val} {j : Nat} (h : colIdx m l = some j) : m ∈ l := by
  obtain ⟨hlt, hget⟩ := colIdx_some h
  rw [← hget m, List.getD_eq_getElem?_getD, List.getElem?_eq_getElem hlt]
  exact List.getElem_mem hlt

theorem filterMap_length_of_isSome {α β : Type} {f : α → Option β} :
    ∀ {l : List α}, (∀ a ∈ l, (f a).isSome) → (l.filterMap f).length = l.length
  | [], _ => rfl
  | a :: t, h => by
    cases hfa : f a with
    | none => exact absurd (hfa ▸ h a (List.mem_cons_self _ _)) (by simp)
    | some b =>
      rw [List.filterMap_cons_some hfa, List.length_cons, List.length_cons,
        filterMap_length_of_isSome (fun w hw => h w (List.mem_cons_of_mem _ hw))]

theorem filterMap_filter_of_none {α β : Type} {p : α → Bool} {f : α → Option β}
    (hf : ∀ a, p a = false → f a = none) :
    ∀ l : List α, (l.filter p).filterMap f = l.filterMap f
  | [] => rfl
  | a :: t => by
    cases hpa : p a with
    | true =>
      rw [List.filter_cons_of_pos hpa, List.filterMap_cons, List.filterMap_cons,
        filterMap_filter_of_none hf t]
    | false =>
      rw [List.filter_cons_of_neg (by simp [hpa]), List.filterMap_cons, hf a hpa,
        filterMap_filter_of_none hf t]

theorem filter_range_getD {α β : Type} (p : α → Bool) (g : α → β) (d : α) :
    ∀ M : List α,
      ((List.range M.length).filter (fun j => p (M.getD j d))).map (fun j => g (M.getD j d))
        = (M.filter p).map g
  | [] => rfl
  | a :: t => by
    rw [List.length_cons, List.range_succ_eq_map, List.filter_cons]
    have hpred : (fun j => p ((a :: t).getD j d)) ∘ Nat.succ = fun j => p (t.getD j d) := rfl
    have hmap2 : ∀ X : List Nat,
        (X.map Nat.succ).map (fun j => g ((a :: t).getD j d)) = X.map (fun j => g (t.getD j d)) := by
      intro X
      rw [List.map_map]
      rfl
    cases hpa : p a with
    | true =>
      simp only [List.getD_cons_zero, hpa, if_true, List.map_cons, List.getD_cons_zero]
      rw [List.filter_map, hpred, hmap2, filter_range_getD p g d t,
        List.filter_cons_of_pos hpa, List.map_cons]
    | false =>
      simp only [List.getD_cons_zero, hpa, Bool.false_eq_true, if_false]
      rw [List.filter_map, hpred, hmap2, filter_range_getD p g d t,
        List.filter_cons_of_neg (by simp [hpa])]

theorem any_map2 {α β : Type} (f : α → β) (p : β → Bool) :
    ∀ l : List α, (l.map f).any p = l.any (fun a => p (f a))
  | [] => rfl
  | a :: t => by rw [List.map_cons, List.any_cons, List.any_cons, any_map2 f p t]

theorem all_map2 {α β : Type} (f : α → β) (p : β → Bool) :
    ∀ l : List α, (l.map f).all p = l.all (fun a => p (f a))
  | [] => rfl
  | a :: t => by rw [List.map_cons, List.all_cons, List.all_cons, all_map2 f p t]

theorem dropAllNaNCols_grid (L M : List Val) (g : Val → Val → Option ℚ) :
    Pivot.dropAllNaNCols ⟨L, M, L.map (fun l => M.map (g l))⟩
      = ⟨L, M.filter (fun m => L.any (fun l => (g l m).isSome)),
          L.map (fun l =>
            (M.filter (fun m => L.any (fun l2 => (g l2 m).isSome))).map (g l))⟩ := by
  have hP : ∀ j, j < M.length →
      ((L.map (fun l => M.map (g l))).any (fun r => (r.getD j none).isSome))
        = L.any (fun l => (g l (M.getD j Val.null)).isSome) := by
    intro j hjlt
    rw [any_map2]
    refine congrArg L.any (funext fun l => ?_)
    show ((M.map (g l)).getD j none).isSome = (g l (M.getD j Val.null)).isSome
    rw [getD_map_lt (g l) hjlt Val.null none]
  have hkeepcong : ((List.range M.length).filter
        (fun j => (L.map (fun l => M.map (g l))).any (fun r => (r.getD j none).isSome)))
      = ((List.range M.length).filter
        (fun j => L.any (fun l => (g l (M.getD j Val.null)).isSome))) :=
    List.filter_congr (fun j hj => hP j (List.mem_range.mp hj))
  have hmain := filter_range_getD (fun m => L.any (fun l => (g l m).isSome))
    (fun m => m) Val.null M
  rw [Pivot.dropAllNaNCols, Pivot.mk.injEq]
  refine ⟨rfl, ?_, ?_⟩
  · show ((List.range M.length).filter
        (fun j => (L.map (fun l => M.map (g l))).any (fun r => (r.getD j none).isSome))).map
          (fun j => M.getD j Val.null)
      = M.filter (fun m => L.any (fun l => (g l m).isSome))
    rw [hkeepcong]
    rw [show ((List.range M.length).filter
          (fun j => L.any (fun l => (g l (M.getD j Val.null)).isSome))).map
            (fun j => M.getD j Val.null)
        = (M.filter (fun m => L.any (fun l => (g l m).isSome))).map (fun m => m) from hmain]
    exact List.map_id' _
  · rw [List.map_map]
    refine List.map_congr_left (fun l _ => ?_)
    show ((List.range M.length).filter
        (fun j => (L.map (fun l2 => M.map (g l2))).any (fun r => (r.getD j none).isSome))).map
          (fun j => (M.map (g l)).getD j none)
      = (M.filter (fun m => L.any (fun l2 => (g l2 m).isSome))).map (g l)
    rw [List.map_congr_left (fun j hj => getD_map_lt (g l)
        (List.mem_range.mp (List.mem_of_mem_filter hj)) Val.null none), hkeepcong]
    exact filter_range_getD (fun m => L.any (fun l2 => (g l2 m).isSome)) (g l) Val.null M

theorem dropnaRows_grid (L M : List Val) (g : Val → Val → Option ℚ) :
    Pivot.dropnaRows ⟨L, M, L.map (fun l => M.map (g l))⟩
      = ⟨L.filter (fun l => M.all (fun m => (g l m).isSome)), M,
          (L.filter (fun l => M.all (fun m => (g l m).isSome))).map
            (fun l => M.map (g l))⟩ := by
  rw [Pivot.dropnaRows, Pivot.mk.injEq]
  have hfn : (fun lc : Val × List (Option ℚ) => lc.2.all Option.isSome)
      ∘ (fun a : Val => (a, M.map (g a))) = fun l => M.all (fun m => (g l m).isSome) := by
    funext l
    show ((M.map (g l)).all Option.isSome) = M.all (fun m => (g l m).isSome)
    rw [all_map2]
  refine ⟨?_, rfl, ?_⟩
  · show ((L.zip (L.map (fun l => M.map (g l)))).filter
        (fun lc => lc.2.all Option.isSome)).map Prod.fst = _
    rw [zip_self_map, List.filter_map, hfn, List.map_map]
    rw [show (Prod.fst ∘ fun a : Val => (a, M.map (g a))) = fun a : Val => a from rfl]
    exact List.map_id' _
  · show (L.map (fun l => M.map (g l))).filter (fun r => r.all Option.isSome) = _
    rw [List.filter_map]
    refine congrArg (List.map _) ?_
    refine List.filter_congr (fun l _ => ?_)
    show ((M.map (g l)).all Option.isSome) = M.all (fun m => (g l m).isSome)
    rw [all_map2]

theorem bool_eq_of_iff {a b : Bool} (h : a = true ↔ b = true) : a = b := by
  cases a <;> cases b <;> simp_all

theorem groupVals_coRows (df : DF) (x y m : String) (hm : m = x ∨ m = y) (l : Val) :
    groupVals (coRows df x y) l (Val.str m) = groupVals df.rows l (Val.str m) := by
  refine filterMap_filter_of_none ?_ df.rows
  intro row hp
  have hx : ¬ rowVal row "measureid" = Val.str m := by
    intro he
    rcases hm with rfl | rfl
    · simp [isinXY, he] at hp
    · simp [isinXY, he] at hp
  rw [if_neg (fun hand => hx hand.2)]

theorem pivMeas_cases {df : DF} {x y : String} {m : Val}
    (hm : m ∈ dedupF (keyVals (coRows df x y) "measureid")) :
    m = Val.str x ∨ m = Val.str y := by
  have h2 := mem_of_mem_dedupAux hm
  simp only [keyVals, List.mem_filterMap] at h2
  obtain ⟨row, hrow, hv⟩ := h2
  by_cases hn : rowVal row "measureid" = Val.null
  · rw [if_pos hn] at hv
    cases hv
  · rw [if_neg hn] at hv
    obtain rfl := Option.some.inj hv
    have hiso := List.of_mem_filter hrow
    simp only [isinXY, List.any_cons, List.any_nil, Bool.or_false, Bool.or_eq_true,
      decide_eq_true_eq] at hiso
    exact hiso

theorem getCorrelation_ok_core (df : DF) (x y : String) (r : CorrResult)
    (h : get_correlation df x y = .ok r) :
    r.sample_size = (pairedLocs df x y).length
    ∧ r.mean_x = omean ((pairedLocs df x y).filterMap (cellOf df x))
    ∧ r.mean_y = omean ((pairedLocs df x y).filterMap (cellOf df y))
    ∧ r.corr_isnan = corrIsNaN ((pairedLocs df x y).filterMap (cellOf df x))
        ((pairedLocs df x y).filterMap (cellOf df y))
    ∧ ((pairedLocs df x y).filterMap (cellOf df x)).length = (pairedLocs df x y).length := by
  rw [get_correlation] at h
  obtain ⟨sub, hsub, h⟩ := except_bind_ok h
  obtain ⟨p0, hp0, h⟩ := except_bind_ok h
  obtain ⟨xcol, hxcol, h⟩ := except_bind_ok h
  obtain ⟨ycol, hycol, h⟩ := except_bind_ok h
  cases h
  -- the measure filter: the two leading criteria are omitted
  rw [filter_by_measures] at hsub
  obtain ⟨s1, hs1, hsub⟩ := except_bind_ok hsub
  cases hs1
  obtain ⟨s2, hs2, hsub⟩ := except_bind_ok hsub
  cases hs2
  rw [applyCriterion] at hsub
  simp only [List.isEmpty_cons, Bool.false_eq_true, if_false] at hsub
  cases hcont : df.cols.contains "measureid" with
  | false => rw [DF.isinFilter, hcont] at hsub; cases hsub
  | true =>
    rw [DF.isinFilter, hcont] at hsub
    simp only [if_true] at hsub
    cases hsub
    -- the pivot construction
    rw [show (fun row => [x, y].any fun s => decide (rowVal row "measureid" = Val.str s))
        = isinXY x y from rfl] at hp0
    rw [mk_pivot] at hp0
    simp only [DF.filterRows] at hp0
    cases hb1 : df.cols.contains "locationname" with
    | false => rw [hb1] at hp0; cases hp0
    | true =>
    rw [hb1] at hp0
    cases hb2 : df.cols.contains "measureid" with
    | false => rw [hb2] at hp0; cases hp0
    | true =>
    rw [hb2] at hp0
    cases hb3 : df.cols.contains "data_value" with
    | false => rw [hb3] at hp0; cases hp0
    | true =>
    rw [hb3] at hp0
    cases hb4 : (df.rows.filter (isinXY x y)).any
        (fun row => (rowVal row "data_value").isStr) with
    | true => rw [hb4] at hp0; simp at hp0
    | false =>
    rw [hb4] at hp0
    simp only [Bool.not_true, Bool.not_false, Bool.false_eq_true, if_false,
      Bool.true_eq_false, if_true] at hp0
    cases hp0
    rw [dropAllNaNCols_grid, dropnaRows_grid] at hxcol hycol ⊢
    have hx2 : Pivot.colOf ⟨keptLocs df x y, coMeasKept df x y,
        (keptLocs df x y).map (fun l => (coMeasKept df x y).map (gFun df x y l))⟩ x
        = .ok xcol := hxcol
    have hy2 : Pivot.colOf ⟨keptLocs df x y, coMeasKept df x y,
        (keptLocs df x y).map (fun l => (coMeasKept df x y).map (gFun df x y l))⟩ y
        = .ok ycol := hycol
    clear hxcol hycol
    simp only [Pivot.colOf] at hx2 hy2
    split at hx2
    · cases hx2
    rename_i jx hcx
    split at hy2
    · cases hy2
    rename_i jy hcy
    cases hx2
    cases hy2
    have hxMem : Val.str x ∈ coMeasKept df x y := colIdx_mem hcx
    have hyMem : Val.str y ∈ coMeasKept df x y := colIdx_mem hcy
    obtain ⟨hjxlt, hjxget⟩ := colIdx_some hcx
    obtain ⟨hjylt, hjyget⟩ := colIdx_some hcy
    have hgx : ∀ l, gFun df x y l (Val.str x) = cellOf df x l := by
      intro l
      show omean (groupVals (coRows df x y) l (Val.str x))
        = omean (groupVals df.rows l (Val.str x))
      rw [groupVals_coRows df x y x (Or.inl rfl)]
    have hgy : ∀ l, gFun df x y l (Val.str y) = cellOf df y l := by
      intro l
      show omean (groupVals (coRows df x y) l (Val.str y))
        = omean (groupVals df.rows l (Val.str y))
      rw [groupVals_coRows df x y y (Or.inr rfl)]
    have hKL : keptLocs df x y = pairedLocs df x y := by
      refine List.filter_congr (fun l _ => ?_)
      refine bool_eq_of_iff ?_
      rw [List.all_eq_true, Bool.and_eq_true]
      constructor
      · intro hall
        constructor
        · rw [← hgx l]
          simpa using hall _ hxMem
        · rw [← hgy l]
          simpa using hall _ hyMem
      · rintro ⟨hx1, hy1⟩ m hmm2
        rcases pivMeas_cases (List.mem_of_mem_filter hmm2) with rfl | rfl
        · simpa [hgx l] using hx1
        · simpa [hgy l] using hy1
    have hxcolEq : (keptLocs df x y).map
        (fun l => ((coMeasKept df x y).map (gFun df x y l)).getD jx none)
        = (keptLocs df x y).map (cellOf df x) := by
      refine List.map_congr_left (fun l _ => ?_)
      rw [getD_map_lt (gFun df x y l) hjxlt Val.null none, hjxget Val.null, hgx l]
    have hycolEq : (keptLocs df x y).map
        (fun l => ((coMeasKept df x y).map (gFun df x y l)).getD jy none)
        = (keptLocs df x y).map (cellOf df y) := by
      refine List.map_congr_left (fun l _ => ?_)
      rw [getD_map_lt (gFun df x y l) hjylt Val.null none, hjyget Val.null, hgy l]
    have hxs : (((keptLocs df x y).map (fun l => (coMeasKept df x y).map (gFun df x y l))).map
        (fun r => r.getD jx none)).filterMap id
        = (pairedLocs df x y).filterMap (cellOf df x) := by
      rw [List.map_map]
      rw [show ((fun r : List (Option ℚ) => r.getD jx none)
          ∘ fun l => (coMeasKept df x y).map (gFun df x y l))
          = fun l => ((coMeasKept df x y).map (gFun df x y l)).getD jx none from rfl]
      rw [hxcolEq, hKL]
      rw [List.filterMap_map]
      rfl
    have hys : (((keptLocs df x y).map (fun l => (coMeasKept df x y).map (gFun df x y l))).map
        (fun r => r.getD jy none)).filterMap id
        = (pairedLocs df x y).filterMap (cellOf df y) := by
      rw [List.map_map]
      rw [show ((fun r : List (Option ℚ) => r.getD jy none)
          ∘ fun l => (coMeasKept df x y).map (gFun df x y l))
          = fun l => ((coMeasKept df x y).map (gFun df x y l)).getD jy none from rfl]
      rw [hycolEq, hKL]
      rw [List.filterMap_map]
      rfl
    have hlen : ((pairedLocs df x y).filterMap (cellOf df x)).length
        = (pairedLocs df x y).length := by
      refine filterMap_length_of_isSome ?_
      intro l hl
      have hl2 : l ∈ (coLocs df x y).filter
          (fun l => (cellOf df x l).isSome && (cellOf df y l).isSome) := hl
      have hp := (List.mem_filter.mp hl2).2
      simp only [Bool.and_eq_true] at hp
      exact hp.1
    refine ⟨?_, ?_, ?_, ?_, hlen⟩
    · show (keptLocs df x y).length = (pairedLocs df x y).length
      rw [hKL]
    · show omean ((((keptLocs df x y).map
          (fun l => (coMeasKept df x y).map (gFun df x y l))).map
          (fun r => r.getD jx none)).filterMap id)
        = omean ((pairedLocs df x y).filterMap (cellOf df x))
      rw [hxs]
    · show omean ((((keptLocs df x y).map
          (fun l => (coMeasKept df x y).map (gFun df x y l))).map
          (fun r => r.getD jy none)).filterMap id)
        = omean ((pairedLocs df x y).filterMap (cellOf df y))
      rw [hys]
    · show corrIsNaN
          ((((keptLocs df x y).map (fun l => (coMeasKept df x y).map (gFun df x y l))).map
            (fun r => r.getD jx none)).filterMap id)
          ((((keptLocs df x y).map (fun l => (coMeasKept df x y).map (gFun df x y l))).map
            (fun r => r.getD jy none)).filterMap id)
        = corrIsNaN ((pairedLocs df x y).filterMap (cellOf df x))
            ((pairedLocs df x y).filterMap (cellOf df y))
      rw [hxs, hys]

/-- Claim C6: whenever `getCorrelation` returns, its sample size is the number
of distinct locations holding a value for both requested measures, and the
two means are the means of each measure's aggregated county values over
exactly those paired locations. -/
theorem getCorrelation_pairs_and_means (df : DF) (x y : String) (r : CorrResult)
    (h : get_correlation df x y = .ok r) :
    r.sample_size = (pairedLocs df x y).length
    ∧ r.mean_x = omean ((pairedLocs df x y).filterMap (cellOf df x))
    ∧ r.mean_y = omean ((pairedLocs df x y).filterMap (cellOf df y)) := by
  obtain ⟨h1, h2, h3, -, -⟩ := getCorrelation_ok_core df x y r h
  exact ⟨h1, h2, h3⟩

/-- Witness for C6 at the test fixture X=[1,3], Y=[2,4] over two locations:
sample size 2, means 2.0 and 3.0, and a defined (non-NaN) coefficient. -/
theorem getCorrelation_pairs_and_means_witness :
    get_correlation corrFixture "X" "Y"
      = .ok { corr_isnan := false, sample_size := 2, mean_x := some 2, mean_y := some 3 }
    ∧ (({ corr_isnan := false, sample_size := 2, mean_x := some 2, mean_y := some 3 }
          : CorrResult).sample_size = (pairedLocs corrFixture "X" "Y").length
       ∧ ({ corr_isnan := false, sample_size := 2, mean_x := some 2, mean_y := some 3 }
          : CorrResult).mean_x
          = omean ((pairedLocs corrFixture "X" "Y").filterMap (cellOf corrFixture "X"))
       ∧ ({ corr_isnan := false, sample_size := 2, mean_x := some 2, mean_y := some 3 }
          : CorrResult).mean_y
          = omean ((pairedLocs corrFixture "X" "Y").filterMap (cellOf corrFixture "Y"))) :=
  ⟨by decide, getCorrelation_pairs_and_means corrFixture "X" "Y" _ (by decide)⟩

/-- Claim C9 as amended: whenever `getCorrelation` returns a result (rather
than raising) and fewer than two paired locations remain, the correlation
coefficient is the NaN sentinel. -/
theorem getCorrelation_small_sample_nan (df : DF) (x y : String) (r : CorrResult)
    (h : get_correlation df x y = .ok r) (hs : r.sample_size < 2) : r.corr_isnan = true := by
  obtain ⟨h1, -, -, h4, h5⟩ := getCorrelation_ok_core df x y r h
  rw [h4]
  have hlt : ((pairedLocs df x y).filterMap (cellOf df x)).length < 2 := by
    rw [h5, ← h1]
    exact hs
  simp [corrIsNaN, hlt]

/-- A table where neither requested measure occurs. -/
def noMatchDF : DF :=
  { cols := ["locationname", "measureid", "data_value"]
    index := [0]
    rows := [[("locationname", Val.str "aaa"), ("measureid", Val.str "Z"),
              ("data_value", Val.num 1)]] }

/-- Counterexample to claim C9: with zero matching rows (zero paired
locations) the pivot has no column for the first measure and `table[x]`
raises a KeyError; the call does not return a NaN-coefficient result. -/
theorem getCorrelation_missing_measure_keyerror :
    get_correlation noMatchDF "X" "Y" = .error (PErr.keyError "X")
    ∧ pairedLocs noMatchDF "X" "Y" = [] :=
  ⟨by decide, by decide⟩

/-- A table with exactly one location carrying both measures. -/
def onePairDF : DF :=
  { cols := ["locationname", "measureid", "data_value"]
    index := [0, 1]
    rows := [[("locationname", Val.str "aaa"), ("measureid", Val.str "X"),
              ("data_value", Val.num 1)],
             [("locationname", Val.str "aaa"), ("measureid", Val.str "Y"),
              ("data_value", Val.num 2)]] }

/-- Witness for C9 as amended: one paired location gives a returned result
whose coefficient is the NaN sentinel. -/
theorem getCorrelation_small_sample_nan_witness :
    get_correlation onePairDF "X" "Y"
      = .ok { corr_isnan := true, sample_size := 1, mean_x := some 1, mean_y := some 2 }
    ∧ ({ corr_isnan := true, sample_size := 1, mean_x := some 1, mean_y := some 2 }
        : CorrResult).sample_size < 2
    ∧ ({ corr_isnan := true, sample_size := 1, mean_x := some 1, mean_y := some 2 }
        : CorrResult).corr_isnan = true :=
  ⟨by decide, by decide,
   getCorrelation_small_sample_nan onePairDF "X" "Y" _ (by decide) (by decide)⟩
